import Mathlib

/-!
# User-Agent generator (`main.go`): shallow embedding and verified properties

The Go program synthesises browser User-Agent strings.  Its core is a version
sampler (`fromRange`, `chromeVersion`, `safariVersion`), four template renderers
and the dispatcher `Generate`.  Of the HTTP glue, the count and type selection of
`handleUA` and the route prefix of `main` are embedded.

Modelling conventions

* Go `int` is the 64-bit two's-complement integer.  Values are `Int`; every
  arithmetic operation of the source is followed by `wrap`, the reduction to
  the interval `[-2^63, 2^63)`.
* The global generator of `math/rand` is an explicit stream of raw draws
  (`Source`).  A computation that draws is a function
  `Source → Option (α × Source)`: it returns its value and the rest of the
  stream, and `none` stands for a Go run-time panic.
* Go strings are `String`; `fmt.Sprintf` with `%s`, `%d`, `%c` verbs is string
  concatenation of the rendered arguments.
-/

namespace UserAgent

/-! ## Machine integers -/

/-- Smallest value of Go's 64-bit `int`. -/
def minInt : Int := -9223372036854775808

/-- Largest value of Go's 64-bit `int`. -/
def maxInt : Int := 9223372036854775807

/-- Two's-complement wrap-around of an integer result to 64 bits. -/
def wrap (x : Int) : Int := (x + 9223372036854775808) % 18446744073709551616 - 9223372036854775808

/-- The values a Go `int` can hold. -/
def isInt (x : Int) : Prop := minInt ≤ x ∧ x ≤ maxInt

instance (x : Int) : Decidable (isInt x) := by unfold isInt; infer_instance

/-! ## The random source -/

/-- The stream of raw draws of the process-wide generator. -/
abbrev Source := Nat → Nat

/-- The stream after its first draw has been consumed. -/
def Source.tail (s : Source) : Source := fun i => s (i + 1)

/-- A computation reading the random source; `none` is a panic. -/
abbrev Rand (α : Type) := Source → Option (α × Source)

/-- Go `rand.Intn(n)`: panics when `n <= 0`, otherwise consumes one draw and returns a value
of `[0, n)`.  Every value of `[0, n)` is returned for some draw. -/
def Intn (n : Int) : Rand Int := fun s =>
  if n ≤ 0 then none else some ((s 0 : Int) % n, s.tail)

/-- Go `rand.Float64()`: consumes one draw and returns a float64 of `[0, 1)`.  `math/rand`
computes it as `float64(Int63()) / (1 << 63)`, a multiple of `2^-63`; the value is represented
by its numerator `k`, standing for `k / 2^63`. -/
def Float64 : Rand Nat := fun s => some (s 0 % 9223372036854775808, s.tail)

/-- The comparison `f < 0.3` of the source for `f = k / 2^63`.  The constant `0.3` is the float64
nearest to 3/10, which is `5404319552844595 / 2^54`; both sides are cross-multiplied. -/
def ltPoint3 (k : Nat) : Prop := k * 18014398509481984 < 5404319552844595 * 9223372036854775808

instance (k : Nat) : Decidable (ltPoint3 k) := by unfold ltPoint3; infer_instance

/-! ## Formatting -/

/-- The verb `%d` of `fmt.Sprintf` applied to an `int`. -/
def decimal (i : Int) : String :=
  if i < 0 then "-" ++ Nat.repr (-i).toNat else Nat.repr i.toNat

/-- The verb `%c` of `fmt.Sprintf` applied to an `int` code point. -/
def fmtC (i : Int) : String := String.singleton (Char.ofNat i.toNat)

/-- Go `strings.ReplaceAll(s, old, new)` for a one-character `old`. -/
def ReplaceAll (s : String) (old : Char) (new : String) : String :=
  String.join (s.data.map fun c => if c = old then new else String.singleton c)

/-! ## Data model -/

/-- Go `type Target int`. -/
abbrev Target := Int

def ChromeWin : Target := 0
def ChromeAndroid : Target := 1
def SafariIPhone : Target := 2
def SafariMac : Target := 3

/-- Go `struct Version`. -/
structure Version where
  Major : Int
  Full : String
  deriving DecidableEq, Repr

/-- Go `struct Result`. -/
structure Result where
  UserAgent : String
  BrowserVersion : Version
  deriving DecidableEq, Repr

/-- Go `struct Options`. -/
structure Options where
  MaxMajor : Int
  MajorDelta : Int
  MobileVendor : String
  deriving DecidableEq, Repr

/-- Go `type Option func(*Options)`: an update of the options record. -/
abbrev GenOption := Options → Options

def WithMaxMajor (v : Int) : GenOption := fun o => { o with MaxMajor := v }

def WithMajorDelta (v : Int) : GenOption := fun o => { o with MajorDelta := v }

def WithMobileVendor (v : String) : GenOption := fun o => { o with MobileVendor := v }

/-- The anonymous struct type of `chromeVersionRange`. -/
structure ChromeRange where
  MajorMin : Int
  MajorMax : Int
  PatchMin : Int
  PatchMax : Int
  BuildMin : Int
  BuildMax : Int

/-- The anonymous struct type of `safariVersionRange`. -/
structure SafariRange where
  MajorMin : Int
  MajorMax : Int
  MinorMin : Int
  MinorMax : Int
  PatchMin : Int
  PatchMax : Int

def chromeVersionRange : ChromeRange := ⟨136, 138, 6834, 7204, 85, 101⟩

def safariVersionRange : SafariRange := ⟨614, 632, 1, 36, 1, 15⟩

def mobileVendors : List String := [
  "SM-T510", "SM-T295", "SM-T515", "SM-T860", "SM-T720", "SM-T595", "SM-T290", "SM-T865", "SM-T835",
  "SM-T725", "SM-P610", "SM-T590", "SM-P615", "TV BOX", "SM-T830", "Lenovo TB-X505X", "SM-T500",
  "Lenovo TB-X505F", "Lenovo TB-X606F", "SM-P205", "SM-T505", "MRX-W09", "Lenovo YT-X705F",
  "Lenovo TB-X505L", "MRX-AL09", "SCM-W09", "Lenovo TB-X606X", "P20HD_EEA", "SM-A105M", "iPlay_20",
  "Lenovo TB-X606V", "H96 Max RK3318", "TVBOX", "SM-T387V", "Lenovo YT-X705L", "Lenovo TB-X306X",
  "Lenovo TB-X306F", "SM-T870", "Redmi Note 8 Pro", "Tab8", "SM-T970", "SM-A205G", "Lenovo TB-X605FC",
  "Lenovo TB-J606F", "e-tab 20", "ADT1061", "SM-T307U", "100003562", "MBOX", "Lenovo TB-X605LC",
  "M40_EEA", "M2003J15SC", "100003561", "X109", "Redmi Note 8", "Lenovo TB-8705F", "A860", "SM-A107M",
  "Redmi Note 7", "BAH3-W09", "BAH3-L09", "TX6s", "SM-T507", "P20HD_ROW", "Magnet_G30", "SM-T875",
  "SM-T387W", "MI PAD 4", "Lenovo YT-X705X", "Lenovo TB-X606FA", "SM-P200", "SM-A207M", "M2004J19C",
  "X104-EEA", "SM-T837V", "SM-A307GT", "AGS3-W09", "SM-T505N", "SM-A105F", "Magnet_G50", "A850", "8092",
  "100015685-A", "X88pro10.q2.0.6330.d4", "SM-T975", "SM-G973F", "J5"]

def windowsNTVersion : String := "10.0"

def windowsArch : String := "Win64"

def macOSVersions : List String := [
  "10_15_7", "10_14_6", "10_13_6", "11_0", "11_1", "11_2", "11_3", "11_4", "11_5", "11_6",
  "12_0", "12_1", "12_2", "12_3", "12_4", "12_5", "12_6",
  "13_0", "13_1", "13_2", "13_3", "13_4", "13_5", "13_6",
  "14_0", "14_1", "14_2", "14_3", "14_4", "14_5", "14_6"]

def androidVersions : List String := ["9", "10", "11", "12", "13", "14", "14", "14", "14"]

def iOSVersions : List String := [
  "16_0", "16_1", "16_2", "16_3", "16_4", "16_5",
  "17_0", "17_1", "17_2", "17_3", "17_4", "17_5"]

def safariBrowserVersions : List String := ["15", "16", "17", "17", "17"]

/-- The substring relation (Go `strings.Contains`), used to state properties of the output. -/
def Contains (s sub : String) : Prop := ∃ p q : String, s = p ++ sub ++ q

/-- The text following the first occurrence of `a`. -/
def afterFirst (a : List Char) : List Char → Option (List Char)
  | [] => none
  | c :: cs => if a.isPrefixOf (c :: cs) then some ((c :: cs).drop a.length) else afterFirst a cs

/-- The text preceding the first occurrence of `b`. -/
def upToFirst (b : List Char) : List Char → Option (List Char)
  | [] => none
  | c :: cs => if b.isPrefixOf (c :: cs) then some [] else (upToFirst b cs).map (c :: ·)

/-- The text of `s` between the first occurrence of `a` and the next occurrence of `b`. -/
def textBetween (a b : String) (s : String) : Option String :=
  ((afterFirst a.data s.data).bind (upToFirst b.data)).map String.mk

/-- No occurrence of `a` starts inside `p` when `p` is followed by `a`. -/
def firstAt (a : List Char) : List Char → Bool
  | [] => true
  | c :: cs => !(a.isPrefixOf (c :: cs ++ a)) && firstAt a cs

/-! ## Sampling -/

/-- Go `fromRange`: `min` when `min >= max`, else `min + rand.Intn(max-min+1)`. -/
def fromRange (min max : Int) : Rand Int := fun s =>
  if min ≥ max then some (min, s)
  else do
    let (r, s1) ← Intn (wrap (wrap (max - min) + 1)) s
    pure (wrap (min + r), s1)

/-- Go `randChoice`: `s[rand.Intn(len(s))]`; an index outside the slice panics. -/
def randChoice {α : Type} (tbl : List α) : Rand α := fun s => do
  let (i, s1) ← Intn (tbl.length : Int) s
  let x ← if i < 0 then none else tbl.get? i.toNat
  pure (x, s1)

/-- Go `chromeVersion`. -/
def chromeVersion (maxMajor majorDelta : Int) : Rand Version := fun s =>
  let bounds : Int × Int :=
    if maxMajor > 0 then (max (wrap (maxMajor - majorDelta)) 0, maxMajor)
    else (chromeVersionRange.MajorMin, chromeVersionRange.MajorMax)
  do
    let (major, s1) ← fromRange bounds.1 bounds.2 s
    let (patch, s2) ← fromRange chromeVersionRange.PatchMin chromeVersionRange.PatchMax s1
    let (build, s3) ← fromRange chromeVersionRange.BuildMin chromeVersionRange.BuildMax s2
    pure (⟨major, decimal major ++ ".0." ++ decimal patch ++ "." ++ decimal build⟩, s3)

/-- Go `safariVersion`. -/
def safariVersion (maxMajor majorDelta : Int) : Rand Version := fun s =>
  let bounds : Int × Int :=
    if maxMajor > 0 then (max (wrap (maxMajor - majorDelta)) 0, maxMajor)
    else (safariVersionRange.MajorMin, safariVersionRange.MajorMax)
  do
    let (major, s1) ← fromRange bounds.1 bounds.2 s
    let (minor, s2) ← fromRange safariVersionRange.MinorMin safariVersionRange.MinorMax s1
    let (f, s3) ← Float64 s2
    if ltPoint3 f then do
      let (patch, s4) ← fromRange safariVersionRange.PatchMin safariVersionRange.PatchMax s3
      pure (⟨major, decimal major ++ "." ++ decimal minor ++ "." ++ decimal patch⟩, s4)
    else
      pure (⟨major, decimal major ++ "." ++ decimal minor⟩, s3)

/-! ## Rendering -/

/-- Go `generateChromeWindows`. -/
def generateChromeWindows (ver : Version) : String :=
  "Mozilla/5.0 (Windows NT " ++ windowsNTVersion ++ "; " ++ windowsArch
    ++ "; x64) AppleWebKit/537.36 (KHTML, like Gecko) Chrome/" ++ ver.Full ++ " Safari/537.36"

/-- Go `generateChromeAndroid`. -/
def generateChromeAndroid (ver : Version) (vendor : String) : Rand String := fun s => do
  let (androidVer, s1) ← randChoice androidVersions s
  pure ("Mozilla/5.0 (Linux; Android " ++ androidVer ++ "; " ++ vendor
    ++ ") AppleWebKit/537.36 (KHTML, like Gecko) Chrome/" ++ ver.Full ++ " Mobile Safari/537.36", s1)

/-- Go `generateSafariIPhone`. -/
def generateSafariIPhone (ver : Version) : Rand String := fun s => do
  let (iosVer, s1) ← randChoice iOSVersions s
  let browserVer := ReplaceAll iosVer '_' "."
  let (r1, s2) ← Intn 26 s1
  let (r2, s3) ← Intn 10 s2
  let (r3, s4) ← Intn 10 s3
  let (r4, s5) ← Intn 26 s4
  let (r5, s6) ← Intn 10 s5
  let (r6, s7) ← Intn 26 s6
  let mobileID := fmtC (wrap (65 + r1)) ++ fmtC (wrap (48 + r2)) ++ fmtC (wrap (48 + r3))
    ++ fmtC (wrap (65 + r4)) ++ fmtC (wrap (48 + r5)) ++ fmtC (wrap (65 + r6))
  pure ("Mozilla/5.0 (iPhone; CPU iPhone OS " ++ iosVer
    ++ " like Mac OS X) AppleWebKit/605.1.15 (KHTML, like Gecko) Version/" ++ browserVer
    ++ " Mobile/" ++ mobileID ++ " Safari/" ++ ver.Full, s7)

/-- Go `generateSafariMac`. -/
def generateSafariMac (ver : Version) : Rand String := fun s => do
  let (macVer, s1) ← randChoice macOSVersions s
  let (browserVer, s2) ← randChoice safariBrowserVersions s1
  let (minorVer, s3) ← fromRange 0 7 s2
  pure ("Mozilla/5.0 (Macintosh; Intel Mac OS X " ++ macVer ++ ") AppleWebKit/" ++ ver.Full
    ++ " (KHTML, like Gecko) Version/" ++ browserVer ++ "." ++ decimal minorVer
    ++ " Safari/" ++ ver.Full, s3)

/-- The options record `Generate` works with: `&Options{MajorDelta: 2}` updated by every option in
turn. -/
def applyOptions (opts : List GenOption) : Options :=
  opts.foldl (fun o opt => opt o) { MaxMajor := 0, MajorDelta := 2, MobileVendor := "" }

/-- Go `Result{}`. -/
def zeroResult : Result := ⟨"", ⟨0, ""⟩⟩

/-- Go `Generate`. -/
def Generate (target : Target) (opts : List GenOption) : Rand Result := fun s =>
  let options := applyOptions opts
  if target = ChromeWin then do
    let (ver, s1) ← chromeVersion options.MaxMajor options.MajorDelta s
    pure (⟨generateChromeWindows ver, ver⟩, s1)
  else if target = ChromeAndroid then do
    let (ver, s1) ← chromeVersion options.MaxMajor options.MajorDelta s
    let (vendor, s2) ← (if options.MobileVendor = "" then randChoice mobileVendors s1
      else some (options.MobileVendor, s1))
    let (ua, s3) ← generateChromeAndroid ver vendor s2
    pure (⟨ua, ver⟩, s3)
  else if target = SafariIPhone then do
    let (ver, s1) ← safariVersion options.MaxMajor options.MajorDelta s
    let (ua, s2) ← generateSafariIPhone ver s1
    pure (⟨ua, ver⟩, s2)
  else if target = SafariMac then do
    let (ver, s1) ← safariVersion options.MaxMajor options.MajorDelta s
    let (ua, s2) ← generateSafariMac ver s1
    pure (⟨ua, ver⟩, s2)
  else
    some (zeroResult, s)

/-! ## The HTTP handler

`handleUA` reads two query values, `query.Get("count")` and `query.Get("type")` (the empty string
when the parameter is absent), and answers with the array `ua`.  Logging, headers and the JSON
encoding are left out; the library functions are modelled by their documented behaviour. -/

/-- The digit loop of Go `strconv.Atoi`: `n = n*10 + int(ch - '0')`, with a syntax error on a
character that is not a decimal digit. -/
def parseDigits : List Char → Nat → Option Nat
  | [], acc => some acc
  | c :: cs, acc => if c.isDigit then parseDigits cs (acc * 10 + (c.toNat - 48)) else none

/-- Go `strconv.Atoi`: an optional sign followed by at least one decimal digit, and a value that
fits in a 64-bit `int`; `none` stands for a non-nil error (syntax or range). -/
def Atoi (s : String) : Option Int :=
  let body : Bool × List Char :=
    match s.data with
    | [] => (false, [])
    | c :: cs => if c = '-' then (true, cs) else if c = '+' then (false, cs) else (false, c :: cs)
  if body.2 = [] then none
  else
    match parseDigits body.2 0 with
    | none => none
    | some n =>
      let v : Int := if body.1 then -(n : Int) else (n : Int)
      if minInt ≤ v ∧ v ≤ maxInt then some v else none

/-- The count of `handleUA` from the value of `query.Get("count")`: default 1, a parsed positive
value replaces it, and it is limited to 100. -/
def resolveCount (countStr : String) : Int :=
  let count : Int :=
    if countStr ≠ "" then
      match Atoi countStr with
      | some n => if n > 0 then n else 1
      | none => 1
    else 1
  if count > 100 then 100 else count

/-- The map `typeMap` of `handleUA`; `none` is a missing key. -/
def typeMap (key : String) : Option Target :=
  if key = "win" then some ChromeWin
  else if key = "android" then some ChromeAndroid
  else if key = "ios" then some SafariIPhone
  else if key = "mac" then some SafariMac
  else none

/-- Go `unicode.IsSpace`. -/
def isSpace (c : Char) : Bool :=
  c.toNat = 9 || c.toNat = 10 || c.toNat = 11 || c.toNat = 12 || c.toNat = 13 || c.toNat = 32
    || c.toNat = 133 || c.toNat = 160 || c.toNat = 5760
    || (8192 ≤ c.toNat && c.toNat ≤ 8202) || c.toNat = 8232 || c.toNat = 8233
    || c.toNat = 8239 || c.toNat = 8287 || c.toNat = 12288

/-- Go `strings.TrimSpace`: the string without its leading and trailing white space. -/
def TrimSpace (s : String) : String :=
  String.mk ((s.data.dropWhile isSpace).rdropWhile isSpace)

/-- The pieces of a list of characters between the occurrences of `sep`. -/
def splitChars (sep : Char) : List Char → List (List Char)
  | [] => [[]]
  | c :: cs =>
    if c = sep then [] :: splitChars sep cs
    else
      match splitChars sep cs with
      | [] => [[c]]
      | piece :: pieces => (c :: piece) :: pieces

/-- Go `strings.SplitSeq(s, sep)` for a one-character separator: all substrings of `s` separated
by `sep`, in order. -/
def SplitSeq (s : String) (sep : Char) : List String :=
  (splitChars sep s.data).map String.mk

/-- The slice `targets` of `handleUA` after the loop over the `type` value and before the
fallback: each recognised segment appends its target. -/
def parseTargets (typeStr : String) : List Target :=
  if typeStr ≠ "" then
    (SplitSeq typeStr '@').foldl
      (fun targets t =>
        match typeMap (TrimSpace t) with
        | some target => targets ++ [target]
        | none => targets) []
  else []

/-- The slice `targets` of `handleUA` after the fallback to all four targets. -/
def eligibleTargets (typeStr : String) : List Target :=
  if (parseTargets typeStr).length = 0 then [ChromeWin, ChromeAndroid, SafariIPhone, SafariMac]
  else parseTargets typeStr

/-- The type selection in the words of the specification: split on `@`, trim each segment, keep
the segments that are exactly one of the four codes, map them to their targets in order. -/
def requestedTargets (typeStr : String) : List Target :=
  (((SplitSeq typeStr '@').map TrimSpace).filter
      (fun code => code = "win" || code = "android" || code = "ios" || code = "mac")).map
    (fun code =>
      if code = "win" then ChromeWin
      else if code = "android" then ChromeAndroid
      else if code = "ios" then SafariIPhone
      else SafariMac)

/-- The generation loop of `handleUA`: `count` times, a target of `targets` is drawn and the
User-Agent of `Generate(target)` is stored. -/
def generateItems (targets : List Target) : Nat → Rand (List String)
  | 0 => fun s => some ([], s)
  | n + 1 => fun s => do
    let (i, s1) ← Intn (targets.length : Int) s
    let target ← (if i < 0 then none else targets.get? i.toNat)
    let (r, s2) ← Generate target [] s1
    let (rest, s3) ← generateItems targets n s2
    pure (r.UserAgent :: rest, s3)

/-- Go `handleUA`: the array `ua` of the response, from the two query values. -/
def handleUA (countStr typeStr : String) : Rand (List String) :=
  generateItems (eligibleTargets typeStr) (resolveCount countStr).toNat

/-- Go `strings.Trim(s, cutset)`: `s` without its leading and trailing characters contained in
`cutset`. -/
def Trim (s : String) (cutset : String) : String :=
  String.mk ((s.data.dropWhile fun c => cutset.data.contains c).rdropWhile
    fun c => cutset.data.contains c)

/-- The route prefix of `main`, from the value of `os.Getenv("URL_PREFIX")` (empty when unset). -/
def routePrefix (urlPrefix : String) : String := "/" ++ Trim urlPrefix "/"

/-! ## Telling the templates apart -/

/-- Two lists of characters differ at a position that both have. -/
def mismatch : List Char → List Char → Bool
  | a :: as, b :: bs => a != b || mismatch as bs
  | _, _ => false

/-- The target whose template opening a User-Agent string starts with. -/
def recoverTarget (ua : String) : Option Target :=
  if "Mozilla/5.0 (Windows NT ".data.isPrefixOf ua.data then some ChromeWin
  else if "Mozilla/5.0 (Linux; Android ".data.isPrefixOf ua.data then some ChromeAndroid
  else if "Mozilla/5.0 (iPhone; ".data.isPrefixOf ua.data then some SafariIPhone
  else if "Mozilla/5.0 (Macintosh; ".data.isPrefixOf ua.data then some SafariMac
  else none


/-! ## Basic facts about the primitives -/

theorem wrap_eq_self {x : Int} (h : isInt x) : wrap x = x := by
  unfold isInt minInt maxInt at h
  unfold wrap
  omega

theorem isInt_wrap (x : Int) : isInt (wrap x) := by
  unfold isInt minInt maxInt wrap
  omega

theorem Intn_of_pos {n : Int} (h : 0 < n) (s : Source) :
    Intn n s = some ((s 0 : Int) % n, s.tail) := by
  unfold Intn
  rw [if_neg (not_le.mpr h)]

theorem Intn_of_nonpos {n : Int} (h : n ≤ 0) (s : Source) : Intn n s = none := by
  unfold Intn
  rw [if_pos h]

theorem fromRange_of_ge {min max : Int} (h : min ≥ max) (s : Source) :
    fromRange min max s = some (min, s) := by
  unfold fromRange
  rw [if_pos h]

/-- When the width `max - min + 1` is representable, `fromRange` consumes one draw `d` and returns
`min + d % (max - min + 1)`. -/
theorem fromRange_of_lt {min max : Int} (hlt : min < max) (hmin : isInt min) (hmax : isInt max)
    (hw : max - min < maxInt) (s : Source) :
    fromRange min max s = some (min + (s 0 : Int) % (max - min + 1), s.tail) := by
  have h1 : wrap (max - min) = max - min := wrap_eq_self (by
    unfold isInt minInt maxInt at *; omega)
  have h2 : wrap (max - min + 1) = max - min + 1 := wrap_eq_self (by
    unfold isInt minInt maxInt at *; omega)
  have hpos : 0 < max - min + 1 := by omega
  have hr0 : 0 ≤ (s 0 : Int) % (max - min + 1) := Int.emod_nonneg _ (by omega)
  have hr1 : (s 0 : Int) % (max - min + 1) < max - min + 1 := Int.emod_lt_of_pos _ hpos
  have h3 : wrap (min + (s 0 : Int) % (max - min + 1)) = min + (s 0 : Int) % (max - min + 1) :=
    wrap_eq_self (by unfold isInt minInt maxInt at *; omega)
  unfold fromRange
  rw [if_neg (not_le.mpr hlt), h1, h2, Intn_of_pos hpos]
  simp [h3]

theorem fromRange_mem (min max : Int) (hlt : min < max) (hmin : isInt min) (hmax : isInt max)
    (hw : max - min < maxInt) (s : Source) :
    ∃ v, fromRange min max s = some (v, s.tail) ∧ min ≤ v ∧ v ≤ max := by
  refine ⟨_, fromRange_of_lt hlt hmin hmax hw s, ?_, ?_⟩
  · have := Int.emod_nonneg (s 0 : Int) (show max - min + 1 ≠ 0 by omega)
    omega
  · have := Int.emod_lt_of_pos (s 0 : Int) (show 0 < max - min + 1 by omega)
    omega


/-- Every value of a representable range is returned for some draw. -/
theorem fromRange_surj {min max v : Int} (hlt : min < max) (hmin : isInt min) (hmax : isInt max)
    (hw : max - min < maxInt) (h1 : min ≤ v) (h2 : v ≤ max) :
    ∃ s : Source, fromRange min max s = some (v, s.tail) := by
  refine ⟨fun _ => (v - min).toNat, ?_⟩
  rw [fromRange_of_lt hlt hmin hmax hw]
  have hc : (((v - min).toNat : Nat) : Int) = v - min := Int.toNat_of_nonneg (by omega)
  have hm : (v - min) % (max - min + 1) = v - min := Int.emod_eq_of_lt (by omega) (by omega)
  simp only [hc, hm]
  congr 2
  omega

/-- The test `ltPoint3` is the comparison of `k / 2^63` with the float64 constant `0.3`, that is
`5404319552844595 / 2^54`, and amounts to `k < 2767011611056432640`. -/
theorem ltPoint3_iff (k : Nat) :
    (ltPoint3 k ↔ k < 2767011611056432640) ∧
    (ltPoint3 k ↔ (k : ℚ) / 2 ^ 63 < 5404319552844595 / 2 ^ 54) := by
  have h1 : ltPoint3 k ↔ k < 2767011611056432640 := by
    unfold ltPoint3
    omega
  refine ⟨h1, h1.trans ?_⟩
  rw [div_lt_iff₀ (by positivity)]
  have hc : (5404319552844595 / 2 ^ 54 * 2 ^ 63 : ℚ) = ((2767011611056432640 : Nat) : ℚ) := by
    norm_num
  rw [hc, Nat.cast_lt]

/-! ## Decimal rendering -/

theorem digitChar_isDigit {d : Nat} (h : d < 10) : (Nat.digitChar d).isDigit = true := by
  interval_cases d <;> decide

theorem toDigitsCore_isDigit (fuel : Nat) : ∀ (n : Nat) (ds : List Char) (c : Char),
    c ∈ Nat.toDigitsCore 10 fuel n ds → c ∈ ds ∨ c.isDigit = true := by
  induction fuel with
  | zero => intro n ds c h; exact Or.inl (by simpa [Nat.toDigitsCore] using h)
  | succ k ih =>
    intro n ds c h
    have hd : (Nat.digitChar (n % 10)).isDigit = true := digitChar_isDigit (Nat.mod_lt _ (by decide))
    simp only [Nat.toDigitsCore] at h
    split at h
    · rcases List.mem_cons.mp h with h | h
      · exact Or.inr (h ▸ hd)
      · exact Or.inl h
    · rcases ih _ _ _ h with h | h
      · rcases List.mem_cons.mp h with h | h
        · exact Or.inr (h ▸ hd)
        · exact Or.inl h
      · exact Or.inr h

theorem repr_isDigit (n : Nat) (c : Char) (h : c ∈ (Nat.repr n).data) : c.isDigit = true := by
  have h1 : c ∈ Nat.toDigits 10 n := by simpa [Nat.repr, List.asString] using h
  rcases toDigitsCore_isDigit _ _ _ _ h1 with h | h
  · simp at h
  · exact h

/-- The rendering of an integer consists of digits and possibly a leading minus sign. -/
theorem decimal_chars (i : Int) (c : Char) (h : c ∈ (decimal i).data) :
    c = '-' ∨ c.isDigit = true := by
  unfold decimal at h
  split at h
  · rw [String.data_append] at h
    rcases List.mem_append.mp h with h | h
    · left; simpa using h
    · exact Or.inr (repr_isDigit _ _ h)
  · exact Or.inr (repr_isDigit _ _ h)

theorem decimal_no_dot (i : Int) : '.' ∉ (decimal i).data := by
  intro h
  rcases decimal_chars i '.' h with h | h
  · exact absurd h (by decide)
  · exact absurd h (by decide)

theorem count_dot_decimal (i : Int) : (decimal i).data.count '.' = 0 :=
  List.count_eq_zero.mpr (decimal_no_dot i)


/-! ## The version samplers -/

/-- Sequencing after a computation known to return. -/
theorem bind_of_some {α β : Type} {x : Option α} {a : α} (h : x = some a) (f : α → Option β) :
    (x >>= f) = f a := by
  subst h; rfl

/-- Sequencing after a computation known to panic. -/
theorem bind_of_none {α β : Type} {x : Option α} (h : x = none) (f : α → Option β) :
    (x >>= f) = none := by
  subst h; rfl

/-- Once the major component is drawn, `chromeVersion` always completes: patch and build come from
the next two draws. -/
theorem chromeVersion_of_major {maxMajor majorDelta major : Int} {s s1 : Source}
    (h : fromRange (if maxMajor > 0 then (max (wrap (maxMajor - majorDelta)) 0, maxMajor)
          else (chromeVersionRange.MajorMin, chromeVersionRange.MajorMax)).1
        (if maxMajor > 0 then (max (wrap (maxMajor - majorDelta)) 0, maxMajor)
          else (chromeVersionRange.MajorMin, chromeVersionRange.MajorMax)).2 s = some (major, s1)) :
    ∃ patch build : Int, (6834 ≤ patch ∧ patch ≤ 7204) ∧ (85 ≤ build ∧ build ≤ 101) ∧
      chromeVersion maxMajor majorDelta s
        = some (⟨major, decimal major ++ ".0." ++ decimal patch ++ "." ++ decimal build⟩,
            s1.tail.tail) := by
  obtain ⟨patch, hp, hp1, hp2⟩ := fromRange_mem chromeVersionRange.PatchMin chromeVersionRange.PatchMax (by decide) (by decide) (by decide) (by decide) s1
  obtain ⟨build, hb, hb1, hb2⟩ := fromRange_mem chromeVersionRange.BuildMin chromeVersionRange.BuildMax (by decide) (by decide) (by decide) (by decide) s1.tail
  refine ⟨patch, build, ⟨hp1, hp2⟩, ⟨hb1, hb2⟩, ?_⟩
  unfold chromeVersion
  simp only [bind_of_some h, bind_of_some hp, bind_of_some hb]
  rfl

theorem chromeVersion_of_major_none {maxMajor majorDelta : Int} {s : Source}
    (h : fromRange (if maxMajor > 0 then (max (wrap (maxMajor - majorDelta)) 0, maxMajor)
          else (chromeVersionRange.MajorMin, chromeVersionRange.MajorMax)).1
        (if maxMajor > 0 then (max (wrap (maxMajor - majorDelta)) 0, maxMajor)
          else (chromeVersionRange.MajorMin, chromeVersionRange.MajorMax)).2 s = none) :
    chromeVersion maxMajor majorDelta s = none := by
  unfold chromeVersion
  simp only [bind_of_none h]

theorem Float64_eq (s : Source) : Float64 s = some (s 0 % 9223372036854775808, s.tail) := rfl

/-- The two shapes of a Safari version, selected by the unit-interval draw. -/
theorem safariVersion_of_major {maxMajor majorDelta major : Int} {s s1 : Source}
    (h : fromRange (if maxMajor > 0 then (max (wrap (maxMajor - majorDelta)) 0, maxMajor)
          else (safariVersionRange.MajorMin, safariVersionRange.MajorMax)).1
        (if maxMajor > 0 then (max (wrap (maxMajor - majorDelta)) 0, maxMajor)
          else (safariVersionRange.MajorMin, safariVersionRange.MajorMax)).2 s = some (major, s1)) :
    ∃ minor patch : Int, (1 ≤ minor ∧ minor ≤ 36) ∧ (1 ≤ patch ∧ patch ≤ 15) ∧
      (ltPoint3 (s1.tail 0 % 9223372036854775808) →
        safariVersion maxMajor majorDelta s
          = some (⟨major, decimal major ++ "." ++ decimal minor ++ "." ++ decimal patch⟩,
              s1.tail.tail.tail)) ∧
      (¬ ltPoint3 (s1.tail 0 % 9223372036854775808) →
        safariVersion maxMajor majorDelta s
          = some (⟨major, decimal major ++ "." ++ decimal minor⟩, s1.tail.tail)) := by
  obtain ⟨minor, hm, hm1, hm2⟩ := fromRange_mem safariVersionRange.MinorMin safariVersionRange.MinorMax (by decide) (by decide) (by decide) (by decide) s1
  obtain ⟨patch, hp, hp1, hp2⟩ := fromRange_mem safariVersionRange.PatchMin safariVersionRange.PatchMax (by decide) (by decide) (by decide) (by decide)
    s1.tail.tail
  refine ⟨minor, patch, ⟨hm1, hm2⟩, ⟨hp1, hp2⟩, ?_, ?_⟩
  · intro hf
    unfold safariVersion
    simp only [bind_of_some h, bind_of_some hm, bind_of_some (Float64_eq s1.tail)]
    rw [if_pos hf]
    simp only [bind_of_some hp]
    rfl
  · intro hf
    unfold safariVersion
    simp only [bind_of_some h, bind_of_some hm, bind_of_some (Float64_eq s1.tail)]
    rw [if_neg hf]
    rfl

theorem safariVersion_of_major_none {maxMajor majorDelta : Int} {s : Source}
    (h : fromRange (if maxMajor > 0 then (max (wrap (maxMajor - majorDelta)) 0, maxMajor)
          else (safariVersionRange.MajorMin, safariVersionRange.MajorMax)).1
        (if maxMajor > 0 then (max (wrap (maxMajor - majorDelta)) 0, maxMajor)
          else (safariVersionRange.MajorMin, safariVersionRange.MajorMax)).2 s = none) :
    safariVersion maxMajor majorDelta s = none := by
  unfold safariVersion
  simp only [bind_of_none h]


/-- The width of the range `0 .. 9223372036854775807` wraps to a negative number and `rand.Intn`
panics. -/
theorem fromRange_zero_maxInt (s : Source) : fromRange 0 maxInt s = none := by
  have hw : wrap (wrap (maxInt - 0) + 1) = minInt := by decide
  unfold fromRange
  rw [if_neg (by decide), hw]
  simp only [bind_of_none (Intn_of_nonpos (show minInt ≤ 0 by decide) s)]

/-! ## Claims about the samplers -/

/-- C1 (defect of the code).  `fromRange` is documented as the sampler of the closed interval
`[min, max]`, but on the well-formed range `0 < 9223372036854775807` the width `max-min+1` wraps
around to `-9223372036854775808`, `rand.Intn` receives a negative argument and the call panics
for every random source: no value of the interval is returned. -/
theorem fromRange_full_width_panics (s : Source) :
    (0 : Int) < maxInt ∧ isInt 0 ∧ isInt maxInt ∧
      wrap (wrap (maxInt - 0) + 1) = minInt ∧ fromRange 0 maxInt s = none := by
  exact ⟨by decide, by decide, by decide, by decide, fromRange_zero_maxInt s⟩

/-- C2.  Degenerate range: when `min >= max` (equal or inverted bounds) `fromRange` returns
exactly `min` for every random source, consumes no draw (the source is handed back unchanged)
and does not panic. -/
theorem fromRange_degenerate (min max : Int) (h : min ≥ max) (s : Source) :
    fromRange min max s = some (min, s) :=
  fromRange_of_ge h s

theorem fromRange_degenerate_witness :
    ((7 : Int) ≥ 3 ∧ fromRange 7 3 (fun _ => 5) = some (7, fun _ => 5)) ∧
    ((4 : Int) ≥ 4 ∧ fromRange 4 4 (fun _ => 5) = some (4, fun _ => 5)) :=
  ⟨⟨by decide, fromRange_degenerate 7 3 (by decide) _⟩,
   ⟨by decide, fromRange_degenerate 4 4 (by decide) _⟩⟩

/-- C3.  With `maxMajor` unset (0), for every `majorDelta` and every random source
`chromeVersion` returns a version whose `Major` is in `[136, 138]` and whose `Full` is
`decimal(Major).0.decimal(patch).decimal(build)` with `patch` in `[6834, 7204]` and `build` in
`[85, 101]`; the rendering of `Major` contains no dot, so it is the first component of `Full`. -/
theorem chromeVersion_default (majorDelta : Int) (s : Source) :
    ∃ (major patch build : Int) (s' : Source),
      chromeVersion 0 majorDelta s
        = some (⟨major, decimal major ++ ".0." ++ decimal patch ++ "." ++ decimal build⟩, s') ∧
      (136 ≤ major ∧ major ≤ 138) ∧ (6834 ≤ patch ∧ patch ≤ 7204) ∧ (85 ≤ build ∧ build ≤ 101) ∧
      '.' ∉ (decimal major).data := by
  obtain ⟨major, hm, hm1, hm2⟩ := fromRange_mem chromeVersionRange.MajorMin chromeVersionRange.MajorMax (by decide) (by decide) (by decide) (by decide) s
  have h : fromRange (if (0 : Int) > 0 then (max (wrap (0 - majorDelta)) 0, 0)
          else (chromeVersionRange.MajorMin, chromeVersionRange.MajorMax)).1
        (if (0 : Int) > 0 then (max (wrap (0 - majorDelta)) 0, 0)
          else (chromeVersionRange.MajorMin, chromeVersionRange.MajorMax)).2 s
        = some (major, s.tail) := by
    rw [if_neg (by decide)]
    exact hm
  obtain ⟨patch, build, hp, hb, hv⟩ := chromeVersion_of_major h
  exact ⟨major, patch, build, _, hv, ⟨hm1, hm2⟩, hp, hb, decimal_no_dot major⟩


/-- The draw of the major component inside an override window that fits in 64 bits. -/
theorem major_in_window {M D : Int} (hM : 0 < M) (hM' : M ≤ maxInt) (hD : 0 ≤ D)
    (hD' : D ≤ maxInt) (hMD : M < maxInt ∨ D < maxInt) (s : Source) :
    ∃ (major : Int) (s1 : Source),
      fromRange (max (wrap (M - D)) 0) M s = some (major, s1) ∧
      max (M - D) 0 ≤ major ∧ major ≤ M := by
  have hw : wrap (M - D) = M - D := wrap_eq_self (by
    unfold isInt minInt maxInt at *; omega)
  rw [hw]
  by_cases hge : max (M - D) 0 ≥ M
  · exact ⟨_, s, fromRange_of_ge hge s, le_refl _, by omega⟩
  · have hlt : max (M - D) 0 < M := not_le.mp hge
    obtain ⟨v, hv, h1, h2⟩ := fromRange_mem _ _ hlt
      (by unfold isInt minInt maxInt at *; omega) (by unfold isInt minInt maxInt at *; omega)
      (by unfold maxInt at *; omega) s
    exact ⟨v, _, hv, h1, h2⟩

/-- C4 (counterexample).  A negative `maxMajor` is "set" but the guard `maxMajor > 0` treats it as
unset: `chromeVersion(-5, 2)` yields a major of the default range, outside `[max(-5-2,0), -5]`.
A negative `majorDelta` puts the lower bound above `maxMajor`: `safariVersion(5, -3)` yields
`8`, outside `[max(5+3,0), 5]`. -/
theorem major_window_counterexample :
    ((chromeVersion (-5) 2 (fun _ => 0)).map (fun r => r.1.Major) = some 136 ∧
      ¬ (max ((-5 : Int) - 2) 0 ≤ 136 ∧ (136 : Int) ≤ -5)) ∧
    ((safariVersion 5 (-3) (fun _ => 0)).map (fun r => r.1.Major) = some 8 ∧
      ¬ (max ((5 : Int) - (-3)) 0 ≤ 8 ∧ (8 : Int) ≤ 5)) := by
  decide

/-- C4 (amended).  For every `maxMajor` `M > 0` and every `majorDelta` `D >= 0` (64-bit values,
not both equal to `9223372036854775807`) and every random source, `chromeVersion(M, D)` and
`safariVersion(M, D)` return a version whose `Major` lies in `[max(M - D, 0), M]`. -/
theorem major_window (M D : Int) (hM : 0 < M) (hM' : M ≤ maxInt) (hD : 0 ≤ D) (hD' : D ≤ maxInt)
    (hMD : M < maxInt ∨ D < maxInt) (s : Source) :
    (∃ (v : Version) (s' : Source),
      chromeVersion M D s = some (v, s') ∧ max (M - D) 0 ≤ v.Major ∧ v.Major ≤ M) ∧
    (∃ (v : Version) (s' : Source),
      safariVersion M D s = some (v, s') ∧ max (M - D) 0 ≤ v.Major ∧ v.Major ≤ M) := by
  obtain ⟨major, s1, hmaj, h1, h2⟩ := major_in_window hM hM' hD hD' hMD s
  constructor
  · have h : fromRange (if M > 0 then (max (wrap (M - D)) 0, M)
          else (chromeVersionRange.MajorMin, chromeVersionRange.MajorMax)).1
        (if M > 0 then (max (wrap (M - D)) 0, M)
          else (chromeVersionRange.MajorMin, chromeVersionRange.MajorMax)).2 s
        = some (major, s1) := by
      rw [if_pos hM]
      exact hmaj
    obtain ⟨patch, build, -, -, hv⟩ := chromeVersion_of_major h
    exact ⟨_, _, hv, h1, h2⟩
  · have h : fromRange (if M > 0 then (max (wrap (M - D)) 0, M)
          else (safariVersionRange.MajorMin, safariVersionRange.MajorMax)).1
        (if M > 0 then (max (wrap (M - D)) 0, M)
          else (safariVersionRange.MajorMin, safariVersionRange.MajorMax)).2 s
        = some (major, s1) := by
      rw [if_pos hM]
      exact hmaj
    obtain ⟨minor, patch, -, -, h3, h4⟩ := safariVersion_of_major h
    by_cases hf : ltPoint3 (s1.tail 0 % 9223372036854775808)
    · exact ⟨_, _, h3 hf, h1, h2⟩
    · exact ⟨_, _, h4 hf, h1, h2⟩

theorem major_window_witness :
    ((0 : Int) < 120 ∧ (120 : Int) ≤ maxInt ∧ (0 : Int) ≤ 5 ∧ (5 : Int) ≤ maxInt) ∧
    (∃ (v : Version) (s' : Source),
      chromeVersion 120 5 (fun _ => 7) = some (v, s') ∧ max (120 - 5) 0 ≤ v.Major ∧
        v.Major ≤ 120) ∧
    (∃ (v : Version) (s' : Source),
      safariVersion 120 5 (fun _ => 7) = some (v, s') ∧ max (120 - 5) 0 ≤ v.Major ∧
        v.Major ≤ 120) :=
  ⟨by decide,
   major_window 120 5 (by decide) (by decide) (by decide) (by decide) (Or.inl (by decide)) _⟩

/-- C5.  With `maxMajor` unset (0), for every `majorDelta` and every random source
`safariVersion` returns a version with `Major` in `[614, 632]`, `minor` in `[1, 36]` and `patch`
in `[1, 15]`: `Full` is `decimal(Major).decimal(minor).decimal(patch)` when the unit-interval
draw `f` satisfies `f < 0.3`, and `decimal(Major).decimal(minor)` otherwise.  The first form has
two dots and the second one, so the form tells which case occurred. -/
theorem safariVersion_default (majorDelta : Int) (s : Source) :
    ∃ (major minor patch : Int) (f : Nat) (s3 : Source),
      (614 ≤ major ∧ major ≤ 632) ∧ (1 ≤ minor ∧ minor ≤ 36) ∧ (1 ≤ patch ∧ patch ≤ 15) ∧
      Float64 s.tail.tail = some (f, s3) ∧
      (ltPoint3 f → ∃ s', safariVersion 0 majorDelta s
          = some (⟨major, decimal major ++ "." ++ decimal minor ++ "." ++ decimal patch⟩, s')) ∧
      (¬ ltPoint3 f → ∃ s', safariVersion 0 majorDelta s
          = some (⟨major, decimal major ++ "." ++ decimal minor⟩, s')) ∧
      (decimal major ++ "." ++ decimal minor ++ "." ++ decimal patch).data.count '.' = 2 ∧
      (decimal major ++ "." ++ decimal minor).data.count '.' = 1 := by
  obtain ⟨major, hm, hm1, hm2⟩ := fromRange_mem safariVersionRange.MajorMin safariVersionRange.MajorMax (by decide) (by decide) (by decide) (by decide) s
  have h : fromRange (if (0 : Int) > 0 then (max (wrap (0 - majorDelta)) 0, 0)
          else (safariVersionRange.MajorMin, safariVersionRange.MajorMax)).1
        (if (0 : Int) > 0 then (max (wrap (0 - majorDelta)) 0, 0)
          else (safariVersionRange.MajorMin, safariVersionRange.MajorMax)).2 s
        = some (major, s.tail) := by
    rw [if_neg (by decide)]
    exact hm
  obtain ⟨minor, patch, hmin, hpat, h3, h4⟩ := safariVersion_of_major h
  refine ⟨major, minor, patch, _, _, ⟨hm1, hm2⟩, hmin, hpat, Float64_eq _,
    fun hf => ⟨_, h3 hf⟩, fun hf => ⟨_, h4 hf⟩, ?_, ?_⟩
  · simp only [String.data_append, List.count_append, count_dot_decimal]
    rfl
  · simp only [String.data_append, List.count_append, count_dot_decimal]
    rfl


/-! ## Table lookups and renderers -/

/-- A choice from a non-empty table consumes one draw and returns an element of the table. -/
theorem randChoice_mem {α : Type} (tbl : List α) (hne : tbl ≠ []) (s : Source) :
    ∃ x, x ∈ tbl ∧ randChoice tbl s = some (x, s.tail) := by
  have hlen : 0 < (tbl.length : Int) := by
    have := List.length_pos.mpr hne
    omega
  have h0 : 0 ≤ (s 0 : Int) % (tbl.length : Int) := Int.emod_nonneg _ (by omega)
  have h1 : (s 0 : Int) % (tbl.length : Int) < (tbl.length : Int) := Int.emod_lt_of_pos _ hlen
  have hi : ((s 0 : Int) % (tbl.length : Int)).toNat < tbl.length := by omega
  refine ⟨tbl.get ⟨_, hi⟩, List.get_mem _ _ _, ?_⟩
  unfold randChoice
  simp only [bind_of_some (Intn_of_pos hlen s)]
  rw [if_neg (not_lt.mpr h0), List.get?_eq_get hi]
  rfl

theorem generateChromeAndroid_eq (ver : Version) (vendor : String) (s : Source) :
    ∃ a, a ∈ androidVersions ∧
      generateChromeAndroid ver vendor s
        = some ("Mozilla/5.0 (Linux; Android " ++ a ++ "; " ++ vendor
            ++ ") AppleWebKit/537.36 (KHTML, like Gecko) Chrome/" ++ ver.Full
            ++ " Mobile Safari/537.36", s.tail) := by
  obtain ⟨a, ha, h⟩ := randChoice_mem androidVersions (by decide) s
  refine ⟨a, ha, ?_⟩
  unfold generateChromeAndroid
  simp only [bind_of_some h]
  rfl

theorem generateSafariMac_eq (s : Source) :
    ∃ (m d : String) (k : Int), m ∈ macOSVersions ∧ d ∈ safariBrowserVersions ∧
      (0 ≤ k ∧ k ≤ 7) ∧
      ∀ ver : Version, generateSafariMac ver s
        = some ("Mozilla/5.0 (Macintosh; Intel Mac OS X " ++ m ++ ") AppleWebKit/" ++ ver.Full
            ++ " (KHTML, like Gecko) Version/" ++ d ++ "." ++ decimal k
            ++ " Safari/" ++ ver.Full, s.tail.tail.tail) := by
  obtain ⟨m, hm, h1⟩ := randChoice_mem macOSVersions (by decide) s
  obtain ⟨d, hd, h2⟩ := randChoice_mem safariBrowserVersions (by decide) s.tail
  obtain ⟨k, h3, hk0, hk7⟩ := fromRange_mem 0 7 (by decide) (by decide) (by decide) (by decide)
    s.tail.tail
  refine ⟨m, d, k, hm, hd, ⟨hk0, hk7⟩, fun ver => ?_⟩
  unfold generateSafariMac
  simp only [bind_of_some h1, bind_of_some h2, bind_of_some h3]
  rfl


/-- A draw of `rand.Intn(n)` for a small positive `n`, offset by a code point: no wrap-around. -/
theorem Intn_offset (base n : Int) (hn : 0 < n) (hb : 0 ≤ base) (hbn : base + n ≤ 256)
    (s : Source) :
    ∃ r : Int, (0 ≤ r ∧ r < n) ∧ Intn n s = some (r, s.tail) ∧ wrap (base + r) = base + r := by
  have h0 : 0 ≤ (s 0 : Int) % n := Int.emod_nonneg _ (by omega)
  have h1 : (s 0 : Int) % n < n := Int.emod_lt_of_pos _ hn
  exact ⟨_, ⟨h0, h1⟩, Intn_of_pos hn s, wrap_eq_self (by unfold isInt minInt maxInt; omega)⟩

theorem generateSafariIPhone_eq (s : Source) :
    ∃ (i : String) (r1 r2 r3 r4 r5 r6 : Int), i ∈ iOSVersions ∧
      (0 ≤ r1 ∧ r1 < 26) ∧ (0 ≤ r2 ∧ r2 < 10) ∧ (0 ≤ r3 ∧ r3 < 10) ∧
      (0 ≤ r4 ∧ r4 < 26) ∧ (0 ≤ r5 ∧ r5 < 10) ∧ (0 ≤ r6 ∧ r6 < 26) ∧
      ∀ ver : Version, generateSafariIPhone ver s
        = some ("Mozilla/5.0 (iPhone; CPU iPhone OS " ++ i
            ++ " like Mac OS X) AppleWebKit/605.1.15 (KHTML, like Gecko) Version/"
            ++ ReplaceAll i '_' "." ++ " Mobile/"
            ++ (fmtC (65 + r1) ++ fmtC (48 + r2) ++ fmtC (48 + r3)
              ++ fmtC (65 + r4) ++ fmtC (48 + r5) ++ fmtC (65 + r6))
            ++ " Safari/" ++ ver.Full, s.tail.tail.tail.tail.tail.tail.tail) := by
  obtain ⟨i, hi, h0⟩ := randChoice_mem iOSVersions (by decide) s
  obtain ⟨r1, b1, h1, w1⟩ := Intn_offset 65 26 (by decide) (by decide) (by decide) s.tail
  obtain ⟨r2, b2, h2, w2⟩ := Intn_offset 48 10 (by decide) (by decide) (by decide) s.tail.tail
  obtain ⟨r3, b3, h3, w3⟩ := Intn_offset 48 10 (by decide) (by decide) (by decide)
    s.tail.tail.tail
  obtain ⟨r4, b4, h4, w4⟩ := Intn_offset 65 26 (by decide) (by decide) (by decide)
    s.tail.tail.tail.tail
  obtain ⟨r5, b5, h5, w5⟩ := Intn_offset 48 10 (by decide) (by decide) (by decide)
    s.tail.tail.tail.tail.tail
  obtain ⟨r6, b6, h6, w6⟩ := Intn_offset 65 26 (by decide) (by decide) (by decide)
    s.tail.tail.tail.tail.tail.tail
  refine ⟨i, r1, r2, r3, r4, r5, r6, hi, b1, b2, b3, b4, b5, b6, fun ver => ?_⟩
  unfold generateSafariIPhone
  simp only [bind_of_some h0, bind_of_some h1, bind_of_some h2, bind_of_some h3,
    bind_of_some h4, bind_of_some h5, bind_of_some h6]
  rw [w1, w2, w3, w4, w5, w6]
  rfl

/-! ## The dispatcher -/

theorem Generate_ChromeWin (opts : List GenOption) (s : Source) :
    Generate ChromeWin opts s
      = (chromeVersion (applyOptions opts).MaxMajor (applyOptions opts).MajorDelta s >>=
          fun p => some (⟨generateChromeWindows p.1, p.1⟩, p.2)) := by
  unfold Generate
  rw [if_pos rfl]
  rfl

theorem Generate_ChromeAndroid (opts : List GenOption) (s : Source) :
    Generate ChromeAndroid opts s
      = (chromeVersion (applyOptions opts).MaxMajor (applyOptions opts).MajorDelta s >>=
          fun p =>
            (if (applyOptions opts).MobileVendor = "" then randChoice mobileVendors p.2
              else some ((applyOptions opts).MobileVendor, p.2)) >>=
            fun q => generateChromeAndroid p.1 q.1 q.2 >>=
              fun u => some (⟨u.1, p.1⟩, u.2)) := by
  unfold Generate
  rw [if_neg (by decide), if_pos rfl]
  rfl

theorem Generate_SafariIPhone (opts : List GenOption) (s : Source) :
    Generate SafariIPhone opts s
      = (safariVersion (applyOptions opts).MaxMajor (applyOptions opts).MajorDelta s >>=
          fun p => generateSafariIPhone p.1 p.2 >>= fun u => some (⟨u.1, p.1⟩, u.2)) := by
  unfold Generate
  rw [if_neg (by decide), if_neg (by decide), if_pos rfl]
  rfl

theorem Generate_SafariMac (opts : List GenOption) (s : Source) :
    Generate SafariMac opts s
      = (safariVersion (applyOptions opts).MaxMajor (applyOptions opts).MajorDelta s >>=
          fun p => generateSafariMac p.1 p.2 >>= fun u => some (⟨u.1, p.1⟩, u.2)) := by
  unfold Generate
  rw [if_neg (by decide), if_neg (by decide), if_neg (by decide), if_pos rfl]
  rfl

theorem Generate_unknown (target : Target) (h0 : target ≠ ChromeWin)
    (h1 : target ≠ ChromeAndroid) (h2 : target ≠ SafariIPhone) (h3 : target ≠ SafariMac)
    (opts : List GenOption) (s : Source) :
    Generate target opts s = some (zeroResult, s) := by
  unfold Generate
  rw [if_neg h0, if_neg h1, if_neg h2, if_neg h3]


theorem Generate_ChromeWin_of_version {opts : List GenOption} {s s1 : Source} {ver : Version}
    (h : chromeVersion (applyOptions opts).MaxMajor (applyOptions opts).MajorDelta s
      = some (ver, s1)) :
    Generate ChromeWin opts s = some (⟨generateChromeWindows ver, ver⟩, s1) := by
  rw [Generate_ChromeWin, bind_of_some h]

/-- The Android renderer receives the forced vendor when there is one and an element of the
vendor table otherwise. -/
theorem Generate_ChromeAndroid_of_version {opts : List GenOption} {s s1 : Source} {ver : Version}
    (h : chromeVersion (applyOptions opts).MaxMajor (applyOptions opts).MajorDelta s
      = some (ver, s1)) :
    ∃ (a w : String) (s' : Source), a ∈ androidVersions ∧
      ((applyOptions opts).MobileVendor ≠ "" → w = (applyOptions opts).MobileVendor ∧ s' = s1.tail) ∧
      ((applyOptions opts).MobileVendor = "" → w ∈ mobileVendors ∧ s' = s1.tail.tail) ∧
      Generate ChromeAndroid opts s
        = some (⟨"Mozilla/5.0 (Linux; Android " ++ a ++ "; " ++ w
            ++ ") AppleWebKit/537.36 (KHTML, like Gecko) Chrome/" ++ ver.Full
            ++ " Mobile Safari/537.36", ver⟩, s') := by
  by_cases hv : (applyOptions opts).MobileVendor = ""
  · obtain ⟨w, hw, hc⟩ := randChoice_mem mobileVendors (by decide) s1
    obtain ⟨a, ha, hg⟩ := generateChromeAndroid_eq ver w s1.tail
    refine ⟨a, w, s1.tail.tail, ha, fun hne => absurd hv hne, fun _ => ⟨hw, rfl⟩, ?_⟩
    rw [Generate_ChromeAndroid, bind_of_some h, if_pos hv, bind_of_some hc, bind_of_some hg]
  · obtain ⟨a, ha, hg⟩ := generateChromeAndroid_eq ver (applyOptions opts).MobileVendor s1
    refine ⟨a, _, s1.tail, ha, fun _ => ⟨rfl, rfl⟩, fun he => absurd he hv, ?_⟩
    rw [Generate_ChromeAndroid, bind_of_some h, if_neg hv]
    exact (bind_of_some rfl _).trans (by rw [bind_of_some hg])

theorem Generate_chrome_none {opts : List GenOption} {s : Source}
    (h : chromeVersion (applyOptions opts).MaxMajor (applyOptions opts).MajorDelta s = none) :
    Generate ChromeWin opts s = none ∧ Generate ChromeAndroid opts s = none := by
  rw [Generate_ChromeWin, Generate_ChromeAndroid, bind_of_none h, bind_of_none h]
  exact ⟨rfl, rfl⟩

theorem Generate_safari_none {opts : List GenOption} {s : Source}
    (h : safariVersion (applyOptions opts).MaxMajor (applyOptions opts).MajorDelta s = none) :
    Generate SafariIPhone opts s = none ∧ Generate SafariMac opts s = none := by
  rw [Generate_SafariIPhone, Generate_SafariMac, bind_of_none h, bind_of_none h]
  exact ⟨rfl, rfl⟩

theorem Generate_SafariIPhone_of_version {opts : List GenOption} {s s1 : Source} {ver : Version}
    (h : safariVersion (applyOptions opts).MaxMajor (applyOptions opts).MajorDelta s
      = some (ver, s1)) :
    ∃ (i : String) (r1 r2 r3 r4 r5 r6 : Int), i ∈ iOSVersions ∧
      (0 ≤ r1 ∧ r1 < 26) ∧ (0 ≤ r2 ∧ r2 < 10) ∧ (0 ≤ r3 ∧ r3 < 10) ∧
      (0 ≤ r4 ∧ r4 < 26) ∧ (0 ≤ r5 ∧ r5 < 10) ∧ (0 ≤ r6 ∧ r6 < 26) ∧
      Generate SafariIPhone opts s
        = some (⟨"Mozilla/5.0 (iPhone; CPU iPhone OS " ++ i
            ++ " like Mac OS X) AppleWebKit/605.1.15 (KHTML, like Gecko) Version/"
            ++ ReplaceAll i '_' "." ++ " Mobile/"
            ++ (fmtC (65 + r1) ++ fmtC (48 + r2) ++ fmtC (48 + r3)
              ++ fmtC (65 + r4) ++ fmtC (48 + r5) ++ fmtC (65 + r6))
            ++ " Safari/" ++ ver.Full, ver⟩, s1.tail.tail.tail.tail.tail.tail.tail) := by
  obtain ⟨i, r1, r2, r3, r4, r5, r6, hi, b1, b2, b3, b4, b5, b6, hg⟩ :=
    generateSafariIPhone_eq s1
  refine ⟨i, r1, r2, r3, r4, r5, r6, hi, b1, b2, b3, b4, b5, b6, ?_⟩
  rw [Generate_SafariIPhone, bind_of_some h, bind_of_some (hg ver)]

theorem Generate_SafariMac_of_version {opts : List GenOption} {s s1 : Source} {ver : Version}
    (h : safariVersion (applyOptions opts).MaxMajor (applyOptions opts).MajorDelta s
      = some (ver, s1)) :
    ∃ (m d : String) (k : Int), m ∈ macOSVersions ∧ d ∈ safariBrowserVersions ∧
      (0 ≤ k ∧ k ≤ 7) ∧
      Generate SafariMac opts s
        = some (⟨"Mozilla/5.0 (Macintosh; Intel Mac OS X " ++ m ++ ") AppleWebKit/" ++ ver.Full
            ++ " (KHTML, like Gecko) Version/" ++ d ++ "." ++ decimal k
            ++ " Safari/" ++ ver.Full, ver⟩, s1.tail.tail.tail) := by
  obtain ⟨m, d, k, hm, hd, hk, hg⟩ := generateSafariMac_eq s1
  refine ⟨m, d, k, hm, hd, hk, ?_⟩
  rw [Generate_SafariMac, bind_of_some h, bind_of_some (hg ver)]


theorem chromeVersion_nonpos_returns {maxMajor : Int} (hM : maxMajor ≤ 0) (majorDelta : Int)
    (s : Source) :
    ∃ (ver : Version) (s1 : Source), chromeVersion maxMajor majorDelta s = some (ver, s1) := by
  obtain ⟨major, hm, -, -⟩ := fromRange_mem chromeVersionRange.MajorMin
    chromeVersionRange.MajorMax (by decide) (by decide) (by decide) (by decide) s
  have h : fromRange (if maxMajor > 0 then (max (wrap (maxMajor - majorDelta)) 0, maxMajor)
          else (chromeVersionRange.MajorMin, chromeVersionRange.MajorMax)).1
        (if maxMajor > 0 then (max (wrap (maxMajor - majorDelta)) 0, maxMajor)
          else (chromeVersionRange.MajorMin, chromeVersionRange.MajorMax)).2 s
        = some (major, s.tail) := by
    rw [if_neg (not_lt.mpr hM)]
    exact hm
  obtain ⟨patch, build, -, -, hv⟩ := chromeVersion_of_major h
  exact ⟨_, _, hv⟩

theorem safariVersion_nonpos_returns {maxMajor : Int} (hM : maxMajor ≤ 0) (majorDelta : Int)
    (s : Source) :
    ∃ (ver : Version) (s1 : Source), safariVersion maxMajor majorDelta s = some (ver, s1) := by
  obtain ⟨major, hm, -, -⟩ := fromRange_mem safariVersionRange.MajorMin
    safariVersionRange.MajorMax (by decide) (by decide) (by decide) (by decide) s
  have h : fromRange (if maxMajor > 0 then (max (wrap (maxMajor - majorDelta)) 0, maxMajor)
          else (safariVersionRange.MajorMin, safariVersionRange.MajorMax)).1
        (if maxMajor > 0 then (max (wrap (maxMajor - majorDelta)) 0, maxMajor)
          else (safariVersionRange.MajorMin, safariVersionRange.MajorMax)).2 s
        = some (major, s.tail) := by
    rw [if_neg (not_lt.mpr hM)]
    exact hm
  obtain ⟨minor, patch, -, -, h3, h4⟩ := safariVersion_of_major h
  by_cases hf : ltPoint3 (s.tail.tail 0 % 9223372036854775808)
  · exact ⟨_, _, h3 hf⟩
  · exact ⟨_, _, h4 hf⟩

theorem append_ne_empty (a b : String) (h : a ≠ "") : a ++ b ≠ "" := by
  intro h'
  apply h
  have h2 := congrArg String.data h'
  rw [String.data_append] at h2
  exact String.ext (List.append_eq_nil.mp h2).1

/-- Every result returned for one of the four targets carries a non-empty User-Agent. -/
theorem Generate_userAgent_ne_empty {target : Target}
    (ht : target ∈ [ChromeWin, ChromeAndroid, SafariIPhone, SafariMac])
    {opts : List GenOption} {s s' : Source} {r : Result}
    (h : Generate target opts s = some (r, s')) : r.UserAgent ≠ "" := by
  simp only [List.mem_cons, List.mem_singleton, List.not_mem_nil, or_false] at ht
  rcases ht with rfl | rfl | rfl | rfl
  · cases hc : chromeVersion (applyOptions opts).MaxMajor (applyOptions opts).MajorDelta s with
    | none => rw [(Generate_chrome_none hc).1] at h; exact absurd h (by simp)
    | some p =>
      obtain ⟨ver, s1⟩ := p
      rw [Generate_ChromeWin_of_version hc] at h
      obtain ⟨rfl, -⟩ := Prod.mk.inj (Option.some.inj h)
      unfold generateChromeWindows
      repeat apply append_ne_empty
      decide
  · cases hc : chromeVersion (applyOptions opts).MaxMajor (applyOptions opts).MajorDelta s with
    | none => rw [(Generate_chrome_none hc).2] at h; exact absurd h (by simp)
    | some p =>
      obtain ⟨ver, s1⟩ := p
      obtain ⟨a, w, s2, -, -, -, hg⟩ := Generate_ChromeAndroid_of_version hc
      rw [hg] at h
      obtain ⟨rfl, -⟩ := Prod.mk.inj (Option.some.inj h)
      repeat apply append_ne_empty
      decide
  · cases hc : safariVersion (applyOptions opts).MaxMajor (applyOptions opts).MajorDelta s with
    | none => rw [(Generate_safari_none hc).1] at h; exact absurd h (by simp)
    | some p =>
      obtain ⟨ver, s1⟩ := p
      obtain ⟨i, r1, r2, r3, r4, r5, r6, -, -, -, -, -, -, -, hg⟩ :=
        Generate_SafariIPhone_of_version hc
      rw [hg] at h
      obtain ⟨rfl, -⟩ := Prod.mk.inj (Option.some.inj h)
      repeat apply append_ne_empty
      decide
  · cases hc : safariVersion (applyOptions opts).MaxMajor (applyOptions opts).MajorDelta s with
    | none => rw [(Generate_safari_none hc).2] at h; exact absurd h (by simp)
    | some p =>
      obtain ⟨ver, s1⟩ := p
      obtain ⟨m, d, k, -, -, -, hg⟩ := Generate_SafariMac_of_version hc
      rw [hg] at h
      obtain ⟨rfl, -⟩ := Prod.mk.inj (Option.some.inj h)
      repeat apply append_ne_empty
      decide

/-- With no options every one of the four targets returns a result. -/
theorem Generate_default_returns {target : Target}
    (ht : target ∈ [ChromeWin, ChromeAndroid, SafariIPhone, SafariMac]) (s : Source) :
    ∃ (r : Result) (s' : Source), Generate target [] s = some (r, s') := by
  simp only [List.mem_cons, List.mem_singleton, List.not_mem_nil, or_false] at ht
  obtain ⟨cv, c1, hc⟩ := chromeVersion_nonpos_returns (le_refl 0) 2 s
  obtain ⟨sv, s1, hs⟩ := safariVersion_nonpos_returns (le_refl 0) 2 s
  have hc' : chromeVersion (applyOptions []).MaxMajor (applyOptions []).MajorDelta s
      = some (cv, c1) := hc
  have hs' : safariVersion (applyOptions []).MaxMajor (applyOptions []).MajorDelta s
      = some (sv, s1) := hs
  rcases ht with rfl | rfl | rfl | rfl
  · exact ⟨_, _, Generate_ChromeWin_of_version hc'⟩
  · obtain ⟨a, w, s2, -, -, -, hg⟩ := Generate_ChromeAndroid_of_version hc'
    exact ⟨_, _, hg⟩
  · obtain ⟨i, r1, r2, r3, r4, r5, r6, -, -, -, -, -, -, -, hg⟩ :=
      Generate_SafariIPhone_of_version hs'
    exact ⟨_, _, hg⟩
  · obtain ⟨m, d, k, -, -, -, hg⟩ := Generate_SafariMac_of_version hs'
    exact ⟨_, _, hg⟩


/-- The draw of the major component panics exactly for the override `maxMajor = MaxInt64` with a
`majorDelta` that is `MaxInt64` or negative: the only windows `[0, MaxInt64]` of width `2^63`. -/
theorem major_draw_none_iff (M D : Int) (hM : isInt M) (hD : isInt D) (hpos : 0 < M)
    (s : Source) :
    fromRange (max (wrap (M - D)) 0) M s = none ↔ M = maxInt ∧ (D = maxInt ∨ D < 0) := by
  unfold isInt minInt maxInt at hM hD
  by_cases hge : max (wrap (M - D)) 0 ≥ M
  · rw [fromRange_of_ge hge]
    constructor
    · intro h; exact absurd h (by simp)
    · rintro ⟨h1, h2⟩
      exfalso
      unfold maxInt at h1 h2
      unfold wrap at hge
      omega
  · have hlt : max (wrap (M - D)) 0 < M := not_le.mp hge
    have hlo : 0 ≤ max (wrap (M - D)) 0 := le_max_right _ _
    by_cases hfull : M - max (wrap (M - D)) 0 < maxInt
    · obtain ⟨v, hv, -, -⟩ := fromRange_mem _ _ hlt
        (by unfold isInt minInt maxInt; omega) (by unfold isInt minInt maxInt; omega) hfull s
      rw [hv]
      constructor
      · intro h; exact absurd h (by simp)
      · rintro ⟨h1, h2⟩
        exfalso
        unfold maxInt at h1 h2 hfull
        unfold wrap at hfull hlt hlo
        omega
    · have hM' : M = maxInt := by unfold maxInt at *; omega
      have hlo0 : max (wrap (M - D)) 0 = 0 := by unfold maxInt at *; omega
      constructor
      · intro _
        refine ⟨hM', ?_⟩
        unfold maxInt at *
        unfold wrap at hlo0
        omega
      · intro _
        rw [hlo0, hM']
        exact fromRange_zero_maxInt s

/-- The Chrome sampler panics exactly on the windows of width `2^63`. -/
theorem chromeVersion_none_iff (M D : Int) (hM : isInt M) (hD : isInt D) (s : Source) :
    chromeVersion M D s = none ↔ M = maxInt ∧ (D = maxInt ∨ D < 0) := by
  by_cases hpos : 0 < M
  · have hiff := major_draw_none_iff M D hM hD hpos s
    cases hd : fromRange (max (wrap (M - D)) 0) M s with
    | none =>
      have h : chromeVersion M D s = none := by
        apply chromeVersion_of_major_none
        rw [if_pos hpos]
        exact hd
      exact ⟨fun _ => hiff.mp hd, fun _ => h⟩
    | some p =>
      obtain ⟨major, s1⟩ := p
      have h : fromRange (if M > 0 then (max (wrap (M - D)) 0, M)
            else (chromeVersionRange.MajorMin, chromeVersionRange.MajorMax)).1
          (if M > 0 then (max (wrap (M - D)) 0, M)
            else (chromeVersionRange.MajorMin, chromeVersionRange.MajorMax)).2 s
          = some (major, s1) := by
        rw [if_pos hpos]
        exact hd
      obtain ⟨patch, build, -, -, hv⟩ := chromeVersion_of_major h
      rw [hv]
      constructor
      · intro hn; exact absurd hn (by simp)
      · intro hr
        have := hiff.mpr hr
        rw [hd] at this
        exact absurd this (by simp)
  · obtain ⟨ver, s1, hv⟩ := chromeVersion_nonpos_returns (not_lt.mp hpos) D s
    rw [hv]
    constructor
    · intro hn; exact absurd hn (by simp)
    · rintro ⟨h1, -⟩
      exfalso
      rw [h1] at hpos
      exact hpos (by decide)

/-- The Safari sampler panics exactly on the windows of width `2^63`. -/
theorem safariVersion_none_iff (M D : Int) (hM : isInt M) (hD : isInt D) (s : Source) :
    safariVersion M D s = none ↔ M = maxInt ∧ (D = maxInt ∨ D < 0) := by
  by_cases hpos : 0 < M
  · have hiff := major_draw_none_iff M D hM hD hpos s
    cases hd : fromRange (max (wrap (M - D)) 0) M s with
    | none =>
      have h : safariVersion M D s = none := by
        apply safariVersion_of_major_none
        rw [if_pos hpos]
        exact hd
      exact ⟨fun _ => hiff.mp hd, fun _ => h⟩
    | some p =>
      obtain ⟨major, s1⟩ := p
      have h : fromRange (if M > 0 then (max (wrap (M - D)) 0, M)
            else (safariVersionRange.MajorMin, safariVersionRange.MajorMax)).1
          (if M > 0 then (max (wrap (M - D)) 0, M)
            else (safariVersionRange.MajorMin, safariVersionRange.MajorMax)).2 s
          = some (major, s1) := by
        rw [if_pos hpos]
        exact hd
      obtain ⟨minor, patch, -, -, h3, h4⟩ := safariVersion_of_major h
      have hsome : ∃ q, safariVersion M D s = some q := by
        by_cases hf : ltPoint3 (s1.tail 0 % 9223372036854775808)
        · exact ⟨_, h3 hf⟩
        · exact ⟨_, h4 hf⟩
      obtain ⟨q, hq⟩ := hsome
      rw [hq]
      constructor
      · intro hn; exact absurd hn (by simp)
      · intro hr
        have := hiff.mpr hr
        rw [hd] at this
        exact absurd this (by simp)
  · obtain ⟨ver, s1, hv⟩ := safariVersion_nonpos_returns (not_lt.mp hpos) D s
    rw [hv]
    constructor
    · intro hn; exact absurd hn (by simp)
    · rintro ⟨h1, -⟩
      exfalso
      rw [h1] at hpos
      exact hpos (by decide)

/-- For each of the four targets `Generate` returns a result unless the major window has width
`2^63`. -/
theorem Generate_returns {target : Target}
    (ht : target ∈ [ChromeWin, ChromeAndroid, SafariIPhone, SafariMac]) (opts : List GenOption)
    (hM : isInt (applyOptions opts).MaxMajor) (hD : isInt (applyOptions opts).MajorDelta)
    (hfit : ¬ ((applyOptions opts).MaxMajor = maxInt ∧
      ((applyOptions opts).MajorDelta = maxInt ∨ (applyOptions opts).MajorDelta < 0)))
    (s : Source) :
    ∃ (r : Result) (s' : Source), Generate target opts s = some (r, s') := by
  simp only [List.mem_cons, List.mem_singleton, List.not_mem_nil, or_false] at ht
  have hc : ∃ p, chromeVersion (applyOptions opts).MaxMajor (applyOptions opts).MajorDelta s
      = some p := by
    cases h : chromeVersion (applyOptions opts).MaxMajor (applyOptions opts).MajorDelta s with
    | none => exact absurd ((chromeVersion_none_iff _ _ hM hD s).mp h) hfit
    | some p => exact ⟨p, rfl⟩
  have hs : ∃ p, safariVersion (applyOptions opts).MaxMajor (applyOptions opts).MajorDelta s
      = some p := by
    cases h : safariVersion (applyOptions opts).MaxMajor (applyOptions opts).MajorDelta s with
    | none => exact absurd ((safariVersion_none_iff _ _ hM hD s).mp h) hfit
    | some p => exact ⟨p, rfl⟩
  obtain ⟨⟨cv, c1⟩, hc⟩ := hc
  obtain ⟨⟨sv, s1⟩, hs⟩ := hs
  rcases ht with rfl | rfl | rfl | rfl
  · exact ⟨_, _, Generate_ChromeWin_of_version hc⟩
  · obtain ⟨a, w, s2, -, -, -, hg⟩ := Generate_ChromeAndroid_of_version hc
    exact ⟨_, _, hg⟩
  · obtain ⟨i, r1, r2, r3, r4, r5, r6, -, -, -, -, -, -, -, hg⟩ :=
      Generate_SafariIPhone_of_version hs
    exact ⟨_, _, hg⟩
  · obtain ⟨m, d, k, -, -, -, hg⟩ := Generate_SafariMac_of_version hs
    exact ⟨_, _, hg⟩

/-- Every result returned for the Android target has the Android template, with the forced vendor
when there is one and a vendor of the table otherwise. -/
theorem Generate_ChromeAndroid_result {opts : List GenOption} {s s' : Source} {r : Result}
    (h : Generate ChromeAndroid opts s = some (r, s')) :
    ∃ (a w : String), a ∈ androidVersions ∧
      ((applyOptions opts).MobileVendor ≠ "" → w = (applyOptions opts).MobileVendor) ∧
      ((applyOptions opts).MobileVendor = "" → w ∈ mobileVendors) ∧
      r.UserAgent = "Mozilla/5.0 (Linux; Android " ++ a ++ "; " ++ w
        ++ ") AppleWebKit/537.36 (KHTML, like Gecko) Chrome/" ++ r.BrowserVersion.Full
        ++ " Mobile Safari/537.36" := by
  cases hc : chromeVersion (applyOptions opts).MaxMajor (applyOptions opts).MajorDelta s with
  | none => rw [(Generate_chrome_none hc).2] at h; exact absurd h (by simp)
  | some p =>
    obtain ⟨ver, s1⟩ := p
    obtain ⟨a, w, s2, ha, h1, h2, hg⟩ := Generate_ChromeAndroid_of_version hc
    rw [hg] at h
    obtain ⟨rfl, -⟩ := Prod.mk.inj (Option.some.inj h)
    exact ⟨a, w, ha, fun hne => (h1 hne).1, fun he => (h2 he).1, rfl⟩

/-! ## Claims about `Generate` -/

/-- C6 (defect of the code).  Generation does fail for valid targets: with the options
`WithMaxMajor(9223372036854775807)` and `WithMajorDelta(9223372036854775807)` the major window is
`[0, 9223372036854775807]`, its width wraps around, `rand.Intn` is called with a negative
argument and `Generate` panics for each of the four targets and every random source. -/
theorem Generate_panics_on_full_window (s : Source) :
    (isInt maxInt ∧ applyOptions [WithMaxMajor maxInt, WithMajorDelta maxInt]
        = ⟨maxInt, maxInt, ""⟩) ∧
    Generate ChromeWin [WithMaxMajor maxInt, WithMajorDelta maxInt] s = none ∧
    Generate ChromeAndroid [WithMaxMajor maxInt, WithMajorDelta maxInt] s = none ∧
    Generate SafariIPhone [WithMaxMajor maxInt, WithMajorDelta maxInt] s = none ∧
    Generate SafariMac [WithMaxMajor maxInt, WithMajorDelta maxInt] s = none := by
  have hdraw : fromRange (max (wrap (maxInt - maxInt)) 0) maxInt s = none :=
    (major_draw_none_iff maxInt maxInt (by decide) (by decide) (by decide) s).mpr
      ⟨rfl, Or.inl rfl⟩
  have hc : chromeVersion maxInt maxInt s = none := by
    apply chromeVersion_of_major_none
    rw [if_pos (by decide)]
    exact hdraw
  have hs : safariVersion maxInt maxInt s = none := by
    apply safariVersion_of_major_none
    rw [if_pos (by decide)]
    exact hdraw
  have hc' := @Generate_chrome_none [WithMaxMajor maxInt, WithMajorDelta maxInt] s hc
  have hs' := @Generate_safari_none [WithMaxMajor maxInt, WithMajorDelta maxInt] s hs
  exact ⟨⟨by decide, rfl⟩, hc'.1, hc'.2, hs'.1, hs'.2⟩


/-- C7.  For every target value outside `0..3` and every list of options `Generate` returns the
zero `Result` (empty `UserAgent`, `Major` 0, empty `Full`) and draws nothing.  Conversely, for
each of the four valid targets every returned result has a non-empty `UserAgent`, and a result is
returned for all 64-bit options except those whose major window has width `2^63`. -/
theorem Generate_unknown_target (opts : List GenOption) (s : Source) :
    (∀ target : Target, target < 0 ∨ 3 < target →
      Generate target opts s = some (⟨"", ⟨0, ""⟩⟩, s)) ∧
    (∀ target ∈ [ChromeWin, ChromeAndroid, SafariIPhone, SafariMac],
      ∀ (r : Result) (s' : Source), Generate target opts s = some (r, s') → r.UserAgent ≠ "") ∧
    (∀ target ∈ [ChromeWin, ChromeAndroid, SafariIPhone, SafariMac],
      isInt (applyOptions opts).MaxMajor → isInt (applyOptions opts).MajorDelta →
      ¬ ((applyOptions opts).MaxMajor = maxInt ∧
        ((applyOptions opts).MajorDelta = maxInt ∨ (applyOptions opts).MajorDelta < 0)) →
      ∃ (r : Result) (s' : Source), Generate target opts s = some (r, s') ∧ r.UserAgent ≠ "") := by
  refine ⟨fun target ht => ?_, fun target ht r s' h => Generate_userAgent_ne_empty ht h,
    fun target ht hM hD hfit => ?_⟩
  · have h0 : target ≠ ChromeWin := by rintro rfl; exact absurd ht (by decide)
    have h1 : target ≠ ChromeAndroid := by rintro rfl; exact absurd ht (by decide)
    have h2 : target ≠ SafariIPhone := by rintro rfl; exact absurd ht (by decide)
    have h3 : target ≠ SafariMac := by rintro rfl; exact absurd ht (by decide)
    exact Generate_unknown target h0 h1 h2 h3 opts s
  · obtain ⟨r, s', h⟩ := Generate_returns ht opts hM hD hfit s
    exact ⟨r, s', h, Generate_userAgent_ne_empty ht h⟩

theorem Generate_unknown_target_witness :
    ((4 : Target) < 0 ∨ (3 : Target) < 4) ∧
    Generate 4 [WithMaxMajor 120] (fun _ => 1) = some (⟨"", ⟨0, ""⟩⟩, fun _ => 1) ∧
    (∃ (r : Result) (s' : Source),
      Generate SafariMac [WithMaxMajor 120] (fun _ => 1) = some (r, s') ∧ r.UserAgent ≠ "") :=
  ⟨by decide,
   (Generate_unknown_target [WithMaxMajor 120] (fun _ => 1)).1 4 (by decide),
   (Generate_unknown_target [WithMaxMajor 120] (fun _ => 1)).2.2 SafariMac (by decide)
     (by decide) (by decide) (by decide)⟩

theorem android_template_contains (a v full : String) :
    Contains ("Mozilla/5.0 (Linux; Android " ++ a ++ "; " ++ v
        ++ ") AppleWebKit/537.36 (KHTML, like Gecko) Chrome/" ++ full
        ++ " Mobile Safari/537.36") "Mobile" ∧
    Contains ("Mozilla/5.0 (Linux; Android " ++ a ++ "; " ++ v
        ++ ") AppleWebKit/537.36 (KHTML, like Gecko) Chrome/" ++ full
        ++ " Mobile Safari/537.36") v := by
  constructor
  · refine ⟨"Mozilla/5.0 (Linux; Android " ++ a ++ "; " ++ v
      ++ ") AppleWebKit/537.36 (KHTML, like Gecko) Chrome/" ++ full ++ " ", " Safari/537.36", ?_⟩
    have h : " Mobile Safari/537.36" = " " ++ "Mobile" ++ " Safari/537.36" := by decide
    rw [h]
    simp only [String.append_assoc]
  · refine ⟨"Mozilla/5.0 (Linux; Android " ++ a ++ "; ",
      ") AppleWebKit/537.36 (KHTML, like Gecko) Chrome/" ++ full ++ " Mobile Safari/537.36", ?_⟩
    simp only [String.append_assoc]

/-- C8.  Forced Android vendor.  For every non-empty vendor `v`, every list of options whose
resulting `MobileVendor` is `v` and every random source, every result of
`Generate(ChromeAndroid, ...)` has the User-Agent `Mozilla/5.0 (Linux; Android a; v)
AppleWebKit/537.36 (KHTML, like Gecko) Chrome/Full Mobile Safari/537.36` for an `a` of the Android
version table and the `Full` of the returned version, so it contains `Mobile` and `v`; such a
result is returned for all 64-bit options except those whose major window has width `2^63`
(in particular when `WithMobileVendor(v)` is the only option).  When the resulting vendor is
empty the vendor slot holds an element of `mobileVendors`. -/
theorem Generate_android_vendor (v : String) (hv : v ≠ "") (opts : List GenOption)
    (hopts : (applyOptions opts).MobileVendor = v) (s : Source) :
    (∀ (r : Result) (s' : Source), Generate ChromeAndroid opts s = some (r, s') →
      ∃ a ∈ androidVersions,
        r.UserAgent = "Mozilla/5.0 (Linux; Android " ++ a ++ "; " ++ v
          ++ ") AppleWebKit/537.36 (KHTML, like Gecko) Chrome/" ++ r.BrowserVersion.Full
          ++ " Mobile Safari/537.36" ∧
        Contains r.UserAgent "Mobile" ∧ Contains r.UserAgent v) ∧
    (isInt (applyOptions opts).MaxMajor → isInt (applyOptions opts).MajorDelta →
      ¬ ((applyOptions opts).MaxMajor = maxInt ∧
        ((applyOptions opts).MajorDelta = maxInt ∨ (applyOptions opts).MajorDelta < 0)) →
      ∃ (r : Result) (s' : Source), Generate ChromeAndroid opts s = some (r, s')) ∧
    (∀ opts0 : List GenOption, (applyOptions opts0).MobileVendor = "" →
      ∀ (r : Result) (s' : Source), Generate ChromeAndroid opts0 s = some (r, s') →
      ∃ a ∈ androidVersions, ∃ w ∈ mobileVendors,
        r.UserAgent = "Mozilla/5.0 (Linux; Android " ++ a ++ "; " ++ w
          ++ ") AppleWebKit/537.36 (KHTML, like Gecko) Chrome/" ++ r.BrowserVersion.Full
          ++ " Mobile Safari/537.36") := by
  have hne : (applyOptions opts).MobileVendor ≠ "" := by rw [hopts]; exact hv
  refine ⟨fun r s' h => ?_, fun hM hD hfit => Generate_returns (by decide) opts hM hD hfit s,
    fun opts0 h0 r s' h => ?_⟩
  · obtain ⟨a, w, ha, h1, -, hua⟩ := Generate_ChromeAndroid_result h
    have hw : w = v := (h1 hne).trans hopts
    rw [hw] at hua
    refine ⟨a, ha, hua, ?_, ?_⟩
    · rw [hua]; exact (android_template_contains a v _).1
    · rw [hua]; exact (android_template_contains a v _).2
  · obtain ⟨a, w, ha, -, h2, hua⟩ := Generate_ChromeAndroid_result h
    exact ⟨a, ha, w, h2 h0, hua⟩

theorem Generate_android_vendor_witness :
    ("Pixel 8" ≠ "" ∧ (applyOptions [WithMobileVendor "Pixel 8"]).MobileVendor = "Pixel 8") ∧
    (∃ (r : Result) (s' : Source),
      Generate ChromeAndroid [WithMobileVendor "Pixel 8"] (fun _ => 1) = some (r, s')) :=
  ⟨⟨by decide, rfl⟩,
   (Generate_android_vendor "Pixel 8" (by decide) [WithMobileVendor "Pixel 8"] rfl
      (fun _ => 1)).2.1 (by decide) (by decide) (by decide)⟩

/-! ## Locating a marker in a string -/

theorem isPrefixOf_append_left {a x : List Char} (r : List Char) (hlen : a.length ≤ x.length)
    (h : a.isPrefixOf (x ++ r) = true) : a.isPrefixOf x = true := by
  rw [List.isPrefixOf_iff_prefix] at h ⊢
  exact List.prefix_of_prefix_length_le h (List.prefix_append x r) hlen

theorem isPrefixOf_self_append (a r : List Char) : a.isPrefixOf (a ++ r) = true := by
  rw [List.isPrefixOf_iff_prefix]
  exact List.prefix_append a r

/-- When the marker `a` does not start inside `p`, its first occurrence in `p ++ a ++ r` is the
displayed one. -/
theorem afterFirst_append (a : List Char) (ha : a ≠ []) (r : List Char) :
    ∀ p : List Char, firstAt a p = true → afterFirst a (p ++ a ++ r) = some r := by
  intro p
  induction p with
  | nil =>
    intro _
    obtain ⟨c, cs, rfl⟩ := List.exists_cons_of_ne_nil ha
    have h := isPrefixOf_self_append (c :: cs) r
    simp only [List.nil_append, List.cons_append] at h ⊢
    unfold afterFirst
    rw [if_pos h]
    simp
  | cons c cs ih =>
    intro hp
    simp only [firstAt, Bool.and_eq_true, Bool.not_eq_true'] at hp
    have hno : ¬ a.isPrefixOf (c :: cs ++ a ++ r) = true := by
      intro h
      have := isPrefixOf_append_left r (by simp; omega) h
      rw [hp.1] at this
      exact absurd this (by decide)
    simp only [List.cons_append] at hno ⊢
    unfold afterFirst
    rw [if_neg hno]
    exact ih hp.2

theorem upToFirst_skip (d : Char) (ds : List Char) (c : Char) (cs r : List Char) (hdc : d ≠ c)
    (h : upToFirst (d :: ds) cs = some r) : upToFirst (d :: ds) (c :: cs) = some (c :: r) := by
  have hno : ¬ (d :: ds).isPrefixOf (c :: cs) = true := by
    simp [List.isPrefixOf, hdc]
  unfold upToFirst
  rw [if_neg hno, h]
  rfl

theorem upToFirst_self (b : List Char) (hb : b ≠ []) (r : List Char) :
    upToFirst b (b ++ r) = some [] := by
  obtain ⟨c, cs, rfl⟩ := List.exists_cons_of_ne_nil hb
  have h := isPrefixOf_self_append (c :: cs) r
  simp only [List.cons_append] at h ⊢
  unfold upToFirst
  rw [if_pos h]

/-! ## Claims about the renderers -/

theorem upper_of_draw (r : Int) (h0 : 0 ≤ r) (h1 : r < 26) :
    'A' ≤ Char.ofNat (65 + r).toNat ∧ Char.ofNat (65 + r).toNat ≤ 'Z' := by
  interval_cases r <;> decide

theorem digit_of_draw (r : Int) (h0 : 0 ≤ r) (h1 : r < 10) :
    '0' ≤ Char.ofNat (48 + r).toNat ∧ Char.ofNat (48 + r).toNat ≤ '9' := by
  interval_cases r <;> decide

theorem mobileID_eq (x1 x2 x3 x4 x5 x6 : Int) :
    fmtC x1 ++ fmtC x2 ++ fmtC x3 ++ fmtC x4 ++ fmtC x5 ++ fmtC x6
      = String.mk [Char.ofNat x1.toNat, Char.ofNat x2.toNat, Char.ofNat x3.toNat,
          Char.ofNat x4.toNat, Char.ofNat x5.toNat, Char.ofNat x6.toNat] := rfl

theorem space_ne_of_upper {c : Char} (h : 'A' ≤ c) : ' ' ≠ c := by
  rintro rfl
  exact absurd h (by decide)

theorem space_ne_of_digit {c : Char} (h : '0' ≤ c) : ' ' ≠ c := by
  rintro rfl
  exact absurd h (by decide)

/-- In every iPhone User-Agent the first `Mobile/` is the one of the template, and the text
between it and the next ` Safari/` is the six-character identifier. -/
theorem textBetween_iPhone (i : String) (hi : i ∈ iOSVersions) (c1 c2 c3 c4 c5 c6 : Char)
    (h1 : ' ' ≠ c1) (h2 : ' ' ≠ c2) (h3 : ' ' ≠ c3) (h4 : ' ' ≠ c4) (h5 : ' ' ≠ c5)
    (h6 : ' ' ≠ c6) (full : String) :
    textBetween "Mobile/" " Safari/"
        ("Mozilla/5.0 (iPhone; CPU iPhone OS " ++ i
          ++ " like Mac OS X) AppleWebKit/605.1.15 (KHTML, like Gecko) Version/"
          ++ ReplaceAll i '_' "." ++ " Mobile/" ++ String.mk [c1, c2, c3, c4, c5, c6]
          ++ " Safari/" ++ full)
      = some (String.mk [c1, c2, c3, c4, c5, c6]) := by
  have hfirst : ∀ j ∈ iOSVersions, firstAt "Mobile/".data
      ("Mozilla/5.0 (iPhone; CPU iPhone OS " ++ j
        ++ " like Mac OS X) AppleWebKit/605.1.15 (KHTML, like Gecko) Version/"
        ++ ReplaceAll j '_' "." ++ " ").data = true := by decide
  have hsp : " Mobile/" = " " ++ "Mobile/" := by decide
  have hdata : ("Mozilla/5.0 (iPhone; CPU iPhone OS " ++ i
          ++ " like Mac OS X) AppleWebKit/605.1.15 (KHTML, like Gecko) Version/"
          ++ ReplaceAll i '_' "." ++ " Mobile/" ++ String.mk [c1, c2, c3, c4, c5, c6]
          ++ " Safari/" ++ full).data
      = ("Mozilla/5.0 (iPhone; CPU iPhone OS " ++ i
          ++ " like Mac OS X) AppleWebKit/605.1.15 (KHTML, like Gecko) Version/"
          ++ ReplaceAll i '_' "." ++ " ").data ++ "Mobile/".data
          ++ ([c1, c2, c3, c4, c5, c6] ++ (" Safari/".data ++ full.data)) := by
    rw [hsp]
    simp only [String.data_append, List.append_assoc]
  have hafter := afterFirst_append "Mobile/".data (by decide)
    ([c1, c2, c3, c4, c5, c6] ++ (" Safari/".data ++ full.data)) _ (hfirst i hi)
  have hupto : upToFirst " Safari/".data
      ([c1, c2, c3, c4, c5, c6] ++ (" Safari/".data ++ full.data))
      = some [c1, c2, c3, c4, c5, c6] := by
    have hs : " Safari/".data = ' ' :: "Safari/".data := by decide
    have h0 := upToFirst_self " Safari/".data (by decide) full.data
    rw [hs] at h0 ⊢
    exact upToFirst_skip _ _ c1 _ _ h1 (upToFirst_skip _ _ c2 _ _ h2 (upToFirst_skip _ _ c3 _ _ h3
      (upToFirst_skip _ _ c4 _ _ h4 (upToFirst_skip _ _ c5 _ _ h5
        (upToFirst_skip _ _ c6 _ _ h6 h0)))))
  unfold textBetween
  rw [hdata, hafter, Option.some_bind, hupto]
  rfl

/-- C9.  For every version and every random source `generateSafariIPhone` returns a string of the
iPhone template whose text between `Mobile/` and ` Safari/` is exactly six characters long:
characters 1, 4 and 6 are upper-case letters `A..Z`, characters 2, 3 and 5 are digits `0..9`. -/
theorem generateSafariIPhone_mobileID (ver : Version) (s : Source) :
    ∃ (out i : String) (c1 c2 c3 c4 c5 c6 : Char) (s' : Source), i ∈ iOSVersions ∧
      generateSafariIPhone ver s = some (out, s') ∧
      out = "Mozilla/5.0 (iPhone; CPU iPhone OS " ++ i
            ++ " like Mac OS X) AppleWebKit/605.1.15 (KHTML, like Gecko) Version/"
            ++ ReplaceAll i '_' "." ++ " Mobile/" ++ String.mk [c1, c2, c3, c4, c5, c6]
            ++ " Safari/" ++ ver.Full ∧
      textBetween "Mobile/" " Safari/" out = some (String.mk [c1, c2, c3, c4, c5, c6]) ∧
      (String.mk [c1, c2, c3, c4, c5, c6]).length = 6 ∧
      ('A' ≤ c1 ∧ c1 ≤ 'Z') ∧ ('0' ≤ c2 ∧ c2 ≤ '9') ∧ ('0' ≤ c3 ∧ c3 ≤ '9') ∧
      ('A' ≤ c4 ∧ c4 ≤ 'Z') ∧ ('0' ≤ c5 ∧ c5 ≤ '9') ∧ ('A' ≤ c6 ∧ c6 ≤ 'Z') := by
  obtain ⟨i, r1, r2, r3, r4, r5, r6, hi, b1, b2, b3, b4, b5, b6, hg⟩ := generateSafariIPhone_eq s
  have h := hg ver
  rw [mobileID_eq] at h
  have u1 := upper_of_draw r1 b1.1 b1.2
  have d2 := digit_of_draw r2 b2.1 b2.2
  have d3 := digit_of_draw r3 b3.1 b3.2
  have u4 := upper_of_draw r4 b4.1 b4.2
  have d5 := digit_of_draw r5 b5.1 b5.2
  have u6 := upper_of_draw r6 b6.1 b6.2
  exact ⟨_, i, _, _, _, _, _, _, _, hi, h, rfl,
    textBetween_iPhone i hi _ _ _ _ _ _ (space_ne_of_upper u1.1) (space_ne_of_digit d2.1)
      (space_ne_of_digit d3.1) (space_ne_of_upper u4.1) (space_ne_of_digit d5.1)
      (space_ne_of_upper u6.1) ver.Full,
    rfl, u1, d2, d3, u4, d5, u6⟩

/-- C10.  For every random source there are an element `m` of the macOS version table, a display
version `d` among `15`, `16`, `17` and an integer `k` in `[0, 7]` such that for every version
`ver` `generateSafariMac(ver)` returns `Mozilla/5.0 (Macintosh; Intel Mac OS X m)
AppleWebKit/ver.Full (KHTML, like Gecko) Version/d.k Safari/ver.Full`: `ver.Full` fills both the
AppleWebKit and the Safari token, and `m`, `d`, `k` do not depend on `ver`. -/
theorem generateSafariMac_template (s : Source) :
    ∃ (m d : String) (k : Int) (s' : Source), m ∈ macOSVersions ∧
      (d = "15" ∨ d = "16" ∨ d = "17") ∧ (0 ≤ k ∧ k ≤ 7) ∧
      ∀ ver : Version, generateSafariMac ver s
        = some ("Mozilla/5.0 (Macintosh; Intel Mac OS X " ++ m ++ ") AppleWebKit/" ++ ver.Full
            ++ " (KHTML, like Gecko) Version/" ++ d ++ "." ++ decimal k
            ++ " Safari/" ++ ver.Full, s') := by
  obtain ⟨m, d, k, hm, hd, hk, hg⟩ := generateSafariMac_eq s
  refine ⟨m, d, k, _, hm, ?_, hk, hg⟩
  simp only [safariBrowserVersions, List.mem_cons, List.mem_singleton, List.not_mem_nil,
    or_false] at hd
  rcases hd with h | h | h | h | h <;> simp [h]

/-! ## The Windows template -/

theorem contains_append_right {a sub : String} (b : String) (h : Contains a sub) :
    Contains (a ++ b) sub := by
  obtain ⟨p, q, rfl⟩ := h
  exact ⟨p, q ++ b, by simp only [String.append_assoc]⟩

theorem contains_append_left {b sub : String} (a : String) (h : Contains b sub) :
    Contains (a ++ b) sub := by
  obtain ⟨p, q, rfl⟩ := h
  exact ⟨a ++ p, q, by simp only [String.append_assoc]⟩

theorem contains_self (a : String) : Contains a a :=
  ⟨"", "", by simp⟩

theorem generateChromeWindows_eq (ver : Version) :
    generateChromeWindows ver
      = "Mozilla/5.0 (Windows NT 10.0; Win64; x64) AppleWebKit/537.36 (KHTML, like Gecko) Chrome/"
        ++ ver.Full ++ " Safari/537.36" := by
  have h : "Mozilla/5.0 (Windows NT " ++ windowsNTVersion ++ "; " ++ windowsArch
      ++ "; x64) AppleWebKit/537.36 (KHTML, like Gecko) Chrome/"
      = "Mozilla/5.0 (Windows NT 10.0; Win64; x64) AppleWebKit/537.36 (KHTML, like Gecko) Chrome/" := by
    decide
  unfold generateChromeWindows
  rw [h]

/-- The text up to the next occurrence of a marker that starts with a blank, when the text itself
has no blank. -/
theorem upToFirst_blank (ds r : List Char) :
    ∀ t : List Char, ' ' ∉ t → upToFirst (' ' :: ds) (t ++ (' ' :: ds) ++ r) = some t := by
  intro t
  induction t with
  | nil =>
    intro _
    exact upToFirst_self (' ' :: ds) (by simp) r
  | cons c cs ih =>
    intro h
    have hc : ' ' ≠ c := fun e => h (by rw [← e]; exact List.mem_cons_self _ _)
    have hcs : ' ' ∉ cs := fun e => h (List.mem_cons_of_mem _ e)
    exact upToFirst_skip ' ' ds c _ _ hc (ih hcs)

/-- C11.  For every version `generateChromeWindows` returns exactly `Mozilla/5.0 (Windows NT 10.0;
Win64; x64) AppleWebKit/537.36 (KHTML, like Gecko) Chrome/Full Safari/537.36`.  The string
contains `Windows NT 10.0`, `Win64`, `Chrome/` and `Safari/537.36`; the version fills one slot
(the length is that of the fixed text plus that of `Full`, and for a `Full` without blank the text
between `Chrome/` and ` Safari/` is `Full`); no random draw is involved, so versions with equal
`Full` give equal strings. -/
theorem generateChromeWindows_template (ver : Version) :
    generateChromeWindows ver
      = "Mozilla/5.0 (Windows NT 10.0; Win64; x64) AppleWebKit/537.36 (KHTML, like Gecko) Chrome/"
        ++ ver.Full ++ " Safari/537.36" ∧
    (Contains (generateChromeWindows ver) "Windows NT 10.0" ∧
      Contains (generateChromeWindows ver) "Win64" ∧
      Contains (generateChromeWindows ver) "Chrome/" ∧
      Contains (generateChromeWindows ver) "Safari/537.36") ∧
    (generateChromeWindows ver).length = 102 + ver.Full.length ∧
    (' ' ∉ ver.Full.data →
      textBetween "Chrome/" " Safari/" (generateChromeWindows ver) = some ver.Full) ∧
    (∀ other : Version, other.Full = ver.Full →
      generateChromeWindows other = generateChromeWindows ver) := by
  have heq := generateChromeWindows_eq ver
  refine ⟨heq, ⟨?_, ?_, ?_, ?_⟩, ?_, ?_, ?_⟩
  · rw [heq]
    exact contains_append_right _ (contains_append_right _
      ⟨"Mozilla/5.0 (", "; Win64; x64) AppleWebKit/537.36 (KHTML, like Gecko) Chrome/",
        by decide⟩)
  · rw [heq]
    exact contains_append_right _ (contains_append_right _
      ⟨"Mozilla/5.0 (Windows NT 10.0; ",
        "; x64) AppleWebKit/537.36 (KHTML, like Gecko) Chrome/", by decide⟩)
  · rw [heq]
    exact contains_append_right _ (contains_append_right _
      ⟨"Mozilla/5.0 (Windows NT 10.0; Win64; x64) AppleWebKit/537.36 (KHTML, like Gecko) ", "",
        by decide⟩)
  · rw [heq]
    exact contains_append_left _ ⟨" ", "", by decide⟩
  · rw [heq, String.length_append, String.length_append]
    have h1 : ("Mozilla/5.0 (Windows NT 10.0; Win64; x64) AppleWebKit/537.36 (KHTML, like Gecko) Chrome/").length
        = 88 := by decide
    have h2 : (" Safari/537.36").length = 14 := by decide
    rw [h1, h2]
    omega
  · intro hblank
    have hpre : "Mozilla/5.0 (Windows NT 10.0; Win64; x64) AppleWebKit/537.36 (KHTML, like Gecko) Chrome/"
        = "Mozilla/5.0 (Windows NT 10.0; Win64; x64) AppleWebKit/537.36 (KHTML, like Gecko) "
          ++ "Chrome/" := by decide
    have hpost : " Safari/537.36" = " Safari/" ++ "537.36" := by decide
    have hdata : (generateChromeWindows ver).data
        = ("Mozilla/5.0 (Windows NT 10.0; Win64; x64) AppleWebKit/537.36 (KHTML, like Gecko) ").data
          ++ "Chrome/".data ++ (ver.Full.data ++ " Safari/".data ++ "537.36".data) := by
      rw [heq, hpre, hpost]
      simp only [String.data_append, List.append_assoc]
    have hafter := afterFirst_append "Chrome/".data (by decide)
      (ver.Full.data ++ " Safari/".data ++ "537.36".data)
      ("Mozilla/5.0 (Windows NT 10.0; Win64; x64) AppleWebKit/537.36 (KHTML, like Gecko) ").data
      (by decide)
    have hs : " Safari/".data = ' ' :: "Safari/".data := by decide
    have hupto := upToFirst_blank "Safari/".data "537.36".data ver.Full.data hblank
    unfold textBetween
    rw [hdata, hafter, Option.some_bind, hs, hupto]
    rfl
  · intro other h
    unfold generateChromeWindows
    rw [h]

theorem generateChromeWindows_template_witness :
    ' ' ∉ ("138.0.7000.90" : String).data ∧
    textBetween "Chrome/" " Safari/" (generateChromeWindows ⟨138, "138.0.7000.90"⟩)
      = some "138.0.7000.90" :=
  ⟨by decide, (generateChromeWindows_template ⟨138, "138.0.7000.90"⟩).2.2.2.1 (by decide)⟩

/-! ## Parsing the count -/

theorem digitChar_value {d : Nat} (h : d < 10) : (Nat.digitChar d).toNat - 48 = d := by
  interval_cases d <;> decide

theorem parseDigits_toDigitsCore (fuel : Nat) : ∀ (n : Nat) (ds : List Char), n < fuel →
    parseDigits (Nat.toDigitsCore 10 fuel n ds) 0 = parseDigits ds n := by
  induction fuel with
  | zero => intro n ds h; exact absurd h (Nat.not_lt_zero n)
  | succ k ih =>
    intro n ds h
    have hlt : n % 10 < 10 := Nat.mod_lt _ (by decide)
    have hd : (Nat.digitChar (n % 10)).isDigit = true := digitChar_isDigit hlt
    have hv : (Nat.digitChar (n % 10)).toNat - 48 = n % 10 := digitChar_value hlt
    simp only [Nat.toDigitsCore]
    split
    · rename_i h0
      have hn : n % 10 = n := by omega
      simp only [parseDigits, Nat.zero_mul, Nat.zero_add]
      rw [if_pos hd, hv, hn]
    · rename_i h0
      rw [ih (n / 10) _ (by omega)]
      have hn : n / 10 * 10 + n % 10 = n := by omega
      simp only [parseDigits]
      rw [if_pos hd, hv, hn]

/-- Parsing the decimal rendering of a natural number gives the number back. -/
theorem parseDigits_repr (k : Nat) : parseDigits (Nat.repr k).data 0 = some k := by
  have h : (Nat.repr k).data = Nat.toDigitsCore 10 (k + 1) k [] := rfl
  rw [h, parseDigits_toDigitsCore (k + 1) k [] (Nat.lt_succ_self k)]
  rfl

theorem toDigitsCore_ne_nil (fuel : Nat) : ∀ (n : Nat) (ds : List Char),
    ds ≠ [] ∨ 0 < fuel → Nat.toDigitsCore 10 fuel n ds ≠ [] := by
  induction fuel with
  | zero =>
    intro n ds h
    rcases h with h | h
    · simpa [Nat.toDigitsCore] using h
    · exact absurd h (Nat.lt_irrefl 0)
  | succ k ih =>
    intro n ds _
    simp only [Nat.toDigitsCore]
    split
    · simp
    · exact ih _ _ (Or.inl (by simp))

/-- The rendering of a natural number starts with a digit. -/
theorem repr_data_cons (k : Nat) :
    ∃ (c : Char) (cs : List Char), (Nat.repr k).data = c :: cs ∧ c.isDigit = true := by
  have h : (Nat.repr k).data = Nat.toDigitsCore 10 (k + 1) k [] := rfl
  obtain ⟨c, cs, hc⟩ := List.exists_cons_of_ne_nil
    (toDigitsCore_ne_nil (k + 1) k [] (Or.inr (Nat.succ_pos k)))
  refine ⟨c, cs, h.trans hc, repr_isDigit k c ?_⟩
  rw [h, hc]
  exact List.mem_cons_self _ _

/-- `Atoi` on an unsigned digit string: the value when it fits, an error otherwise. -/
theorem Atoi_unsigned {s : String} {c : Char} {cs : List Char} {k : Nat}
    (hdata : s.data = c :: cs) (hc : c.isDigit = true) (hk : parseDigits (c :: cs) 0 = some k) :
    Atoi s = if (k : Int) ≤ maxInt then some (k : Int) else none := by
  have h1 : c ≠ '-' := by rintro rfl; exact absurd hc (by decide)
  have h2 : c ≠ '+' := by rintro rfl; exact absurd hc (by decide)
  unfold Atoi
  rw [hdata]
  simp only [if_neg h1, if_neg h2, hk, Bool.false_eq_true, if_false]
  rw [if_neg (List.cons_ne_nil c cs)]
  have hmin : minInt ≤ (k : Int) := by unfold minInt; omega
  by_cases hmax : (k : Int) ≤ maxInt
  · rw [if_pos hmax, if_pos ⟨hmin, hmax⟩]
  · rw [if_neg hmax, if_neg (fun h => hmax h.2)]

/-- `Atoi` on a minus sign followed by a digit string. -/
theorem Atoi_negative {s : String} {cs : List Char} {k : Nat}
    (hdata : s.data = '-' :: cs) (hne : cs ≠ []) (hk : parseDigits cs 0 = some k) :
    Atoi s = if minInt ≤ -(k : Int) then some (-(k : Int)) else none := by
  unfold Atoi
  rw [hdata]
  simp only [if_true, hk]
  rw [if_neg hne]
  have hmax : -(k : Int) ≤ maxInt := by unfold maxInt; omega
  by_cases hmin : minInt ≤ -(k : Int)
  · rw [if_pos hmin, if_pos ⟨hmin, hmax⟩]
  · rw [if_neg hmin, if_neg (fun h => hmin h.1)]

/-- `Atoi` reads back the decimal rendering of every 64-bit integer. -/
theorem Atoi_decimal (n : Int) (hn : isInt n) : Atoi (decimal n) = some n := by
  unfold isInt at hn
  by_cases hneg : n < 0
  · have hd : decimal n = "-" ++ Nat.repr (-n).toNat := by unfold decimal; rw [if_pos hneg]
    obtain ⟨c, cs, hcs, -⟩ := repr_data_cons (-n).toNat
    have hdata : (decimal n).data = '-' :: (Nat.repr (-n).toNat).data := by
      rw [hd, String.data_append]; rfl
    have hcast : (((-n).toNat : Nat) : Int) = -n := Int.toNat_of_nonneg (by omega)
    rw [Atoi_negative hdata (by rw [hcs]; simp) (parseDigits_repr _), hcast, neg_neg,
      if_pos hn.1]
  · have hd : decimal n = Nat.repr n.toNat := by unfold decimal; rw [if_neg hneg]
    obtain ⟨c, cs, hcs, hc⟩ := repr_data_cons n.toNat
    have hcast : ((n.toNat : Nat) : Int) = n := Int.toNat_of_nonneg (by omega)
    have hk : parseDigits (c :: cs) 0 = some n.toNat := by
      rw [← hcs]; exact parseDigits_repr _
    rw [hd, Atoi_unsigned hcs hc hk, hcast, if_pos hn.2]

/-- `Atoi` rejects the decimal rendering of an integer above the 64-bit range. -/
theorem Atoi_decimal_large (n : Int) (hn : maxInt < n) : Atoi (decimal n) = none := by
  have hpos : ¬ n < 0 := by unfold maxInt at hn; omega
  have hd : decimal n = Nat.repr n.toNat := by unfold decimal; rw [if_neg hpos]
  obtain ⟨c, cs, hcs, hc⟩ := repr_data_cons n.toNat
  have hcast : ((n.toNat : Nat) : Int) = n := Int.toNat_of_nonneg (by omega)
  have hk : parseDigits (c :: cs) 0 = some n.toNat := by
    rw [← hcs]; exact parseDigits_repr _
  rw [hd, Atoi_unsigned hcs hc hk, hcast, if_neg (not_le.mpr hn)]

theorem Atoi_empty : Atoi "" = none := by decide

theorem resolveCount_of_none {countStr : String} (h : Atoi countStr = none) :
    resolveCount countStr = 1 := by
  unfold resolveCount
  simp only [h]
  split <;> simp

theorem resolveCount_of_some {countStr : String} {n : Int} (h : Atoi countStr = some n) :
    resolveCount countStr = if n > 0 then (if n > 100 then 100 else n) else 1 := by
  have hne : countStr ≠ "" := by
    rintro rfl
    rw [Atoi_empty] at h
    exact absurd h (by simp)
  unfold resolveCount
  simp only [h, if_pos hne]
  by_cases hpos : n > 0
  · simp only [if_pos hpos]
  · simp only [if_neg hpos]
    simp

theorem resolveCount_bounds (countStr : String) :
    1 ≤ resolveCount countStr ∧ resolveCount countStr ≤ 100 := by
  cases h : Atoi countStr with
  | none => rw [resolveCount_of_none h]; exact ⟨by decide, by decide⟩
  | some n =>
    rw [resolveCount_of_some h]
    split
    · split <;> omega
    · exact ⟨by decide, by decide⟩

/-! ## Selecting the targets and generating the items -/

theorem bind_some_eq {α β : Type} (a : α) (f : α → Option β) : (some a >>= f) = f a :=
  bind_of_some (Eq.refl (some a)) f

theorem typeMap_none {key : String} (h : typeMap key = none) :
    (key = "win" || key = "android" || key = "ios" || key = "mac") = false := by
  unfold typeMap at h
  by_cases h1 : key = "win"
  · rw [if_pos h1] at h; exact absurd h (by simp)
  by_cases h2 : key = "android"
  · rw [if_neg h1, if_pos h2] at h; exact absurd h (by simp)
  by_cases h3 : key = "ios"
  · rw [if_neg h1, if_neg h2, if_pos h3] at h; exact absurd h (by simp)
  by_cases h4 : key = "mac"
  · rw [if_neg h1, if_neg h2, if_neg h3, if_pos h4] at h; exact absurd h (by simp)
  simp [h1, h2, h3, h4]

theorem typeMap_some {key : String} {t : Target} (h : typeMap key = some t) :
    (key = "win" || key = "android" || key = "ios" || key = "mac") = true ∧
    (if key = "win" then ChromeWin else if key = "android" then ChromeAndroid
      else if key = "ios" then SafariIPhone else SafariMac) = t ∧
    t ∈ [ChromeWin, ChromeAndroid, SafariIPhone, SafariMac] := by
  unfold typeMap at h
  by_cases h1 : key = "win"
  · rw [if_pos h1] at h
    obtain rfl := Option.some.inj h
    simp [h1]
  by_cases h2 : key = "android"
  · rw [if_neg h1, if_pos h2] at h
    obtain rfl := Option.some.inj h
    simp [h1, h2]
  by_cases h3 : key = "ios"
  · rw [if_neg h1, if_neg h2, if_pos h3] at h
    obtain rfl := Option.some.inj h
    simp [h1, h2, h3]
  by_cases h4 : key = "mac"
  · rw [if_neg h1, if_neg h2, if_neg h3, if_pos h4] at h
    obtain rfl := Option.some.inj h
    simp [h1, h2, h3, h4]
  rw [if_neg h1, if_neg h2, if_neg h3, if_neg h4] at h
  exact absurd h (by simp)

/-- The loop of the handler appends, in order, the targets of the recognised segments. -/
theorem parseLoop_eq (l : List String) : ∀ init : List Target,
    l.foldl
        (fun targets t =>
          match typeMap (TrimSpace t) with
          | some target => targets ++ [target]
          | none => targets) init
      = init ++ (((l.map TrimSpace).filter
            (fun code => code = "win" || code = "android" || code = "ios" || code = "mac")).map
          (fun code =>
            if code = "win" then ChromeWin
            else if code = "android" then ChromeAndroid
            else if code = "ios" then SafariIPhone
            else SafariMac)) := by
  induction l with
  | nil => intro init; simp
  | cons x xs ih =>
    intro init
    rw [List.foldl_cons, List.map_cons]
    cases h : typeMap (TrimSpace x) with
    | none =>
      have hp := typeMap_none h
      simp only [List.filter_cons, hp, Bool.false_eq_true, if_false]
      exact ih init
    | some t =>
      obtain ⟨hp, hg, -⟩ := typeMap_some h
      simp only [List.filter_cons, hp, if_true, List.map_cons, hg]
      rw [ih (init ++ [t])]
      simp

/-- The slice computed by the handler is the sequence described by the specification. -/
theorem parseTargets_eq_requested (typeStr : String) :
    parseTargets typeStr = requestedTargets typeStr := by
  by_cases h : typeStr = ""
  · subst h
    decide
  · unfold parseTargets requestedTargets
    rw [if_pos h, parseLoop_eq]
    simp

theorem requestedTargets_valid (typeStr : String) :
    ∀ t ∈ requestedTargets typeStr, t ∈ [ChromeWin, ChromeAndroid, SafariIPhone, SafariMac] := by
  intro t ht
  unfold requestedTargets at ht
  obtain ⟨code, -, rfl⟩ := List.mem_map.mp ht
  by_cases h1 : code = "win"
  · simp [h1]
  by_cases h2 : code = "android"
  · simp [h1, h2]
  by_cases h3 : code = "ios"
  · simp [h1, h2, h3]
  simp [h1, h2, h3]

theorem eligibleTargets_eq (typeStr : String) :
    eligibleTargets typeStr
      = if requestedTargets typeStr = [] then [ChromeWin, ChromeAndroid, SafariIPhone, SafariMac]
        else requestedTargets typeStr := by
  unfold eligibleTargets
  rw [parseTargets_eq_requested]
  by_cases h : requestedTargets typeStr = []
  · rw [if_pos h, if_pos (by rw [h]; rfl)]
  · rw [if_neg h, if_neg (by rw [List.length_eq_zero]; exact h)]

theorem eligibleTargets_ne_nil (typeStr : String) : eligibleTargets typeStr ≠ [] := by
  rw [eligibleTargets_eq]
  split
  · simp
  · assumption

theorem eligibleTargets_valid (typeStr : String) :
    ∀ t ∈ eligibleTargets typeStr, t ∈ [ChromeWin, ChromeAndroid, SafariIPhone, SafariMac] := by
  rw [eligibleTargets_eq]
  split
  · intro t ht; exact ht
  · exact requestedTargets_valid typeStr

/-- The generation loop never panics on a non-empty list of valid targets: it returns exactly
`n` strings, each the User-Agent of a result of `Generate` for a target of the list. -/
theorem generateItems_spec (targets : List Target) (hne : targets ≠ [])
    (hvalid : ∀ t ∈ targets, t ∈ [ChromeWin, ChromeAndroid, SafariIPhone, SafariMac]) :
    ∀ (n : Nat) (s : Source), ∃ (uas : List String) (s' : Source),
      generateItems targets n s = some (uas, s') ∧ uas.length = n ∧
      ∀ u ∈ uas, ∃ t ∈ targets, ∃ (s1 : Source) (r : Result) (s2 : Source),
        Generate t [] s1 = some (r, s2) ∧ u = r.UserAgent := by
  intro n
  induction n with
  | zero =>
    intro s
    exact ⟨[], s, rfl, rfl, fun u hu => absurd hu (List.not_mem_nil u)⟩
  | succ n ih =>
    intro s
    have hlen : 0 < (targets.length : Int) := by
      have := List.length_pos.mpr hne
      omega
    have h0 : 0 ≤ (s 0 : Int) % (targets.length : Int) := Int.emod_nonneg _ (by omega)
    have h1 : (s 0 : Int) % (targets.length : Int) < (targets.length : Int) :=
      Int.emod_lt_of_pos _ hlen
    have hi : ((s 0 : Int) % (targets.length : Int)).toNat < targets.length := by omega
    have hmem : targets.get ⟨_, hi⟩ ∈ targets := List.get_mem _ _ _
    obtain ⟨r, s2, hg⟩ := Generate_default_returns (hvalid _ hmem) s.tail
    obtain ⟨rest, s3, hrest, hl, hall⟩ := ih s2
    refine ⟨r.UserAgent :: rest, s3, ?_, by rw [List.length_cons, hl], ?_⟩
    · rw [generateItems]
      simp only [bind_of_some (Intn_of_pos hlen s)]
      rw [if_neg (not_lt.mpr h0), List.get?_eq_get hi]
      simp only [bind_some_eq, bind_of_some hg, bind_of_some hrest]
      rfl
    · intro u hu
      rcases List.mem_cons.mp hu with rfl | hu
      · exact ⟨_, hmem, s.tail, r, s2, hg, rfl⟩
      · exact hall u hu

/-- The handler never panics: the array `ua` has exactly the resolved count of entries, each
generated for an eligible target. -/
theorem handleUA_spec (countStr typeStr : String) (s : Source) :
    ∃ (uas : List String) (s' : Source),
      handleUA countStr typeStr s = some (uas, s') ∧
      (uas.length : Int) = resolveCount countStr ∧
      ∀ u ∈ uas, ∃ t ∈ eligibleTargets typeStr, ∃ (s1 : Source) (r : Result) (s2 : Source),
        Generate t [] s1 = some (r, s2) ∧ u = r.UserAgent := by
  obtain ⟨uas, s', h, hl, hall⟩ := generateItems_spec (eligibleTargets typeStr)
    (eligibleTargets_ne_nil typeStr) (eligibleTargets_valid typeStr)
    (resolveCount countStr).toNat s
  refine ⟨uas, s', h, ?_, hall⟩
  rw [hl]
  exact Int.toNat_of_nonneg (by have := (resolveCount_bounds countStr).1; omega)

/-- `Atoi` rejects the decimal rendering of every integer outside the 64-bit range. -/
theorem Atoi_decimal_out (n : Int) (hn : ¬ isInt n) : Atoi (decimal n) = none := by
  by_cases hbig : maxInt < n
  · exact Atoi_decimal_large n hbig
  · have hsmall : n < minInt := by
      unfold isInt at hn
      by_contra hc
      exact hn ⟨not_lt.mp hc, not_lt.mp hbig⟩
    have hneg : n < 0 := by unfold minInt at hsmall; omega
    have hd : decimal n = "-" ++ Nat.repr (-n).toNat := by unfold decimal; rw [if_pos hneg]
    obtain ⟨c, cs, hcs, -⟩ := repr_data_cons (-n).toNat
    have hdata : (decimal n).data = '-' :: (Nat.repr (-n).toNat).data := by
      rw [hd, String.data_append]; rfl
    have hcast : (((-n).toNat : Nat) : Int) = -n := Int.toNat_of_nonneg (by omega)
    rw [Atoi_negative hdata (by rw [hcs]; simp) (parseDigits_repr _), hcast, neg_neg,
      if_neg (not_le.mpr hsmall)]

/-- The length of the answer, as a natural number. -/
theorem handleUA_length (countStr typeStr : String) (s : Source) (k : Nat)
    (hk : resolveCount countStr = (k : Int)) :
    ∃ (uas : List String) (s' : Source),
      handleUA countStr typeStr s = some (uas, s') ∧ uas.length = k := by
  obtain ⟨uas, s', h, hl, -⟩ := handleUA_spec countStr typeStr s
  refine ⟨uas, s', h, ?_⟩
  rw [hk] at hl
  exact Int.ofNat.inj hl

/-! ## Claims about the count -/

/-- C12 (counterexample).  `9223372036854775808` is a decimal integer greater than 100, but
`strconv.Atoi` reports a range error for it, the guard `err == nil` fails and the count stays at
its default: the answer has one entry, not 100. -/
theorem count_clamp_counterexample :
    decimal 9223372036854775808 = "9223372036854775808" ∧
    (100 : Int) < 9223372036854775808 ∧
    Atoi "9223372036854775808" = none ∧
    resolveCount "9223372036854775808" = 1 ∧
    (handleUA "9223372036854775808" "" (fun _ => 0)).map (fun p => p.1.length) = some 1 := by
  decide

/-- C12 (amended).  For every count value that is the decimal rendering of an integer `n` with
`100 < n <= 9223372036854775807` the handler resolves the count to exactly 100 and the array `ua`
has exactly 100 entries, for every type value and random source; the same holds for every other
spelling that `Atoi` reads as such an `n`.  A decimal integer above `9223372036854775807` is not
parsed and leaves the default count 1. -/
theorem count_clamp (n : Int) (h100 : 100 < n) :
    (n ≤ maxInt →
      resolveCount (decimal n) = 100 ∧
      ∀ (typeStr : String) (s : Source), ∃ (uas : List String) (s' : Source),
        handleUA (decimal n) typeStr s = some (uas, s') ∧ uas.length = 100) ∧
    (∀ countStr : String, Atoi countStr = some n →
      resolveCount countStr = 100 ∧
      ∀ (typeStr : String) (s : Source), ∃ (uas : List String) (s' : Source),
        handleUA countStr typeStr s = some (uas, s') ∧ uas.length = 100) ∧
    (maxInt < n →
      resolveCount (decimal n) = 1 ∧
      ∀ (typeStr : String) (s : Source), ∃ (uas : List String) (s' : Source),
        handleUA (decimal n) typeStr s = some (uas, s') ∧ uas.length = 1) := by
  have hgen : ∀ countStr : String, Atoi countStr = some n →
      resolveCount countStr = 100 ∧
      ∀ (typeStr : String) (s : Source), ∃ (uas : List String) (s' : Source),
        handleUA countStr typeStr s = some (uas, s') ∧ uas.length = 100 := by
    intro countStr h
    have hr : resolveCount countStr = 100 := by
      rw [resolveCount_of_some h, if_pos (by omega), if_pos h100]
    exact ⟨hr, fun typeStr s => handleUA_length countStr typeStr s 100 hr⟩
  refine ⟨fun hmax => hgen _ (Atoi_decimal n ⟨by unfold minInt; omega, hmax⟩), hgen,
    fun hbig => ?_⟩
  have hr : resolveCount (decimal n) = 1 := resolveCount_of_none (Atoi_decimal_large n hbig)
  exact ⟨hr, fun typeStr s => handleUA_length _ typeStr s 1 hr⟩

theorem count_clamp_witness :
    ((100 : Int) < 150 ∧ (150 : Int) ≤ maxInt ∧ decimal 150 = "150") ∧
    resolveCount (decimal 150) = 100 ∧
    ∀ (typeStr : String) (s : Source), ∃ (uas : List String) (s' : Source),
      handleUA (decimal 150) typeStr s = some (uas, s') ∧ uas.length = 100 :=
  ⟨by decide, (count_clamp 150 (by decide)).1 (by decide)⟩

/-- C13.  When the count value is empty (or the parameter absent), is not accepted by `Atoi`, or
is an integer `<= 0`, the handler resolves the count to 1; when it is an integer `n` with
`1 <= n <= 100` the count is `n`.  The resolved count is always in `[1, 100]` and the array `ua`
has exactly that many entries, for every type value and random source. -/
theorem count_fallback (countStr : String) :
    (countStr = "" → resolveCount countStr = 1) ∧
    (Atoi countStr = none → resolveCount countStr = 1) ∧
    (∀ n : Int, n ≤ 0 → (Atoi countStr = some n ∨ countStr = decimal n) →
      resolveCount countStr = 1) ∧
    (∀ n : Int, 1 ≤ n → n ≤ 100 → (Atoi countStr = some n ∨ countStr = decimal n) →
      resolveCount countStr = n) ∧
    (1 ≤ resolveCount countStr ∧ resolveCount countStr ≤ 100) ∧
    (∀ (typeStr : String) (s : Source), ∃ (uas : List String) (s' : Source),
      handleUA countStr typeStr s = some (uas, s') ∧
      (uas.length : Int) = resolveCount countStr) := by
  refine ⟨?_, resolveCount_of_none, ?_, ?_, resolveCount_bounds countStr, ?_⟩
  · rintro rfl
    exact resolveCount_of_none Atoi_empty
  · intro n hn h
    rcases h with h | rfl
    · rw [resolveCount_of_some h, if_neg (by omega)]
    · by_cases hi : isInt n
      · rw [resolveCount_of_some (Atoi_decimal n hi), if_neg (by omega)]
      · exact resolveCount_of_none (Atoi_decimal_out n hi)
  · intro n h1 h100 h
    have hi : isInt n := by unfold isInt minInt maxInt; omega
    have hA : Atoi countStr = some n := by
      rcases h with h | rfl
      · exact h
      · exact Atoi_decimal n hi
    rw [resolveCount_of_some hA, if_pos (by omega), if_neg (by omega)]
  · intro typeStr s
    obtain ⟨uas, s', h, hl, -⟩ := handleUA_spec countStr typeStr s
    exact ⟨uas, s', h, hl⟩

theorem count_fallback_witness :
    (Atoi "abc" = none ∧ resolveCount "abc" = 1) ∧
    (((-3 : Int) ≤ 0 ∧ decimal (-3) = "-3") ∧ resolveCount "-3" = 1) ∧
    (((1 : Int) ≤ 42 ∧ (42 : Int) ≤ 100 ∧ decimal 42 = "42") ∧ resolveCount "42" = 42) ∧
    resolveCount "" = 1 :=
  ⟨⟨by decide, (count_fallback "abc").2.1 (by decide)⟩,
   ⟨by decide, (count_fallback "-3").2.2.1 (-3) (by decide) (Or.inr (by decide))⟩,
   ⟨by decide, (count_fallback "42").2.2.2.1 42 (by decide) (by decide) (Or.inr (by decide))⟩,
   (count_fallback "").1 rfl⟩

/-! ## The shape of every result -/

theorem Generate_ChromeWin_result {opts : List GenOption} {s s' : Source} {r : Result}
    (h : Generate ChromeWin opts s = some (r, s')) :
    chromeVersion (applyOptions opts).MaxMajor (applyOptions opts).MajorDelta s
      = some (r.BrowserVersion, s') ∧
    r.UserAgent = generateChromeWindows r.BrowserVersion := by
  cases hc : chromeVersion (applyOptions opts).MaxMajor (applyOptions opts).MajorDelta s with
  | none => rw [(Generate_chrome_none hc).1] at h; exact absurd h (by simp)
  | some p =>
    obtain ⟨ver, s1⟩ := p
    rw [Generate_ChromeWin_of_version hc] at h
    obtain ⟨rfl, rfl⟩ := Prod.mk.inj (Option.some.inj h)
    exact ⟨rfl, rfl⟩

theorem Generate_ChromeAndroid_version {opts : List GenOption} {s s' : Source} {r : Result}
    (h : Generate ChromeAndroid opts s = some (r, s')) :
    ∃ s1 : Source, chromeVersion (applyOptions opts).MaxMajor (applyOptions opts).MajorDelta s
      = some (r.BrowserVersion, s1) := by
  cases hc : chromeVersion (applyOptions opts).MaxMajor (applyOptions opts).MajorDelta s with
  | none => rw [(Generate_chrome_none hc).2] at h; exact absurd h (by simp)
  | some p =>
    obtain ⟨ver, s1⟩ := p
    obtain ⟨a, w, s2, -, -, -, hg⟩ := Generate_ChromeAndroid_of_version hc
    rw [hg] at h
    obtain ⟨rfl, -⟩ := Prod.mk.inj (Option.some.inj h)
    exact ⟨s1, rfl⟩

theorem Generate_SafariIPhone_result {opts : List GenOption} {s s' : Source} {r : Result}
    (h : Generate SafariIPhone opts s = some (r, s')) :
    (∃ s1 : Source, safariVersion (applyOptions opts).MaxMajor (applyOptions opts).MajorDelta s
      = some (r.BrowserVersion, s1)) ∧
    ∃ (i mobileID : String), i ∈ iOSVersions ∧
      r.UserAgent = "Mozilla/5.0 (iPhone; CPU iPhone OS " ++ i
        ++ " like Mac OS X) AppleWebKit/605.1.15 (KHTML, like Gecko) Version/"
        ++ ReplaceAll i '_' "." ++ " Mobile/" ++ mobileID
        ++ " Safari/" ++ r.BrowserVersion.Full := by
  cases hc : safariVersion (applyOptions opts).MaxMajor (applyOptions opts).MajorDelta s with
  | none => rw [(Generate_safari_none hc).1] at h; exact absurd h (by simp)
  | some p =>
    obtain ⟨ver, s1⟩ := p
    obtain ⟨i, r1, r2, r3, r4, r5, r6, hi, -, -, -, -, -, -, hg⟩ :=
      Generate_SafariIPhone_of_version hc
    rw [hg] at h
    obtain ⟨rfl, -⟩ := Prod.mk.inj (Option.some.inj h)
    exact ⟨⟨s1, rfl⟩, i, _, hi, rfl⟩

theorem Generate_SafariMac_result {opts : List GenOption} {s s' : Source} {r : Result}
    (h : Generate SafariMac opts s = some (r, s')) :
    (∃ s1 : Source, safariVersion (applyOptions opts).MaxMajor (applyOptions opts).MajorDelta s
      = some (r.BrowserVersion, s1)) ∧
    ∃ (m d : String) (k : Int), m ∈ macOSVersions ∧ d ∈ safariBrowserVersions ∧
      (0 ≤ k ∧ k ≤ 7) ∧
      r.UserAgent = "Mozilla/5.0 (Macintosh; Intel Mac OS X " ++ m ++ ") AppleWebKit/"
        ++ r.BrowserVersion.Full ++ " (KHTML, like Gecko) Version/" ++ d ++ "." ++ decimal k
        ++ " Safari/" ++ r.BrowserVersion.Full := by
  cases hc : safariVersion (applyOptions opts).MaxMajor (applyOptions opts).MajorDelta s with
  | none => rw [(Generate_safari_none hc).2] at h; exact absurd h (by simp)
  | some p =>
    obtain ⟨ver, s1⟩ := p
    obtain ⟨m, d, k, hm, hd, hk, hg⟩ := Generate_SafariMac_of_version hc
    rw [hg] at h
    obtain ⟨rfl, -⟩ := Prod.mk.inj (Option.some.inj h)
    exact ⟨⟨s1, rfl⟩, m, d, k, hm, hd, hk, rfl⟩

/-- The opening literal of the template of each target. -/
theorem Generate_opening {target : Target} {opts : List GenOption} {s s' : Source} {r : Result}
    (h : Generate target opts s = some (r, s')) :
    (target = ChromeWin → ∃ rest : String, r.UserAgent = "Mozilla/5.0 (Windows NT " ++ rest) ∧
    (target = ChromeAndroid →
      ∃ rest : String, r.UserAgent = "Mozilla/5.0 (Linux; Android " ++ rest) ∧
    (target = SafariIPhone → ∃ rest : String, r.UserAgent = "Mozilla/5.0 (iPhone; " ++ rest) ∧
    (target = SafariMac → ∃ rest : String, r.UserAgent = "Mozilla/5.0 (Macintosh; " ++ rest) := by
  refine ⟨?_, ?_, ?_, ?_⟩
  · rintro rfl
    obtain ⟨-, hua⟩ := Generate_ChromeWin_result h
    rw [hua]
    unfold generateChromeWindows
    simp only [String.append_assoc]
    exact ⟨_, rfl⟩
  · rintro rfl
    obtain ⟨a, w, -, -, -, hua⟩ := Generate_ChromeAndroid_result h
    rw [hua]
    simp only [String.append_assoc]
    exact ⟨_, rfl⟩
  · rintro rfl
    obtain ⟨-, i, mobileID, -, hua⟩ := Generate_SafariIPhone_result h
    have hp : "Mozilla/5.0 (iPhone; CPU iPhone OS " = "Mozilla/5.0 (iPhone; " ++ "CPU iPhone OS " := by
      decide
    rw [hua, hp]
    simp only [String.append_assoc]
    exact ⟨_, rfl⟩
  · rintro rfl
    obtain ⟨-, m, d, k, -, -, -, hua⟩ := Generate_SafariMac_result h
    have hp : "Mozilla/5.0 (Macintosh; Intel Mac OS X "
        = "Mozilla/5.0 (Macintosh; " ++ "Intel Mac OS X " := by decide
    rw [hua, hp]
    simp only [String.append_assoc]
    exact ⟨_, rfl⟩

theorem isPrefixOf_of_mismatch : ∀ (p q rest : List Char), mismatch p q = true →
    p.isPrefixOf (q ++ rest) = false := by
  intro p
  induction p with
  | nil => intro q rest h; simp [mismatch] at h
  | cons a as ih =>
    intro q rest h
    cases q with
    | nil => simp [mismatch] at h
    | cons b bs =>
      simp only [mismatch, Bool.or_eq_true, bne_iff_ne, ne_eq] at h
      simp only [List.cons_append, List.isPrefixOf, Bool.and_eq_false_imp, beq_iff_eq]
      intro hab
      rcases h with h | h
      · exact absurd hab h
      · exact ih bs rest h

/-- The opening literal determines the target. -/
theorem recoverTarget_opening (rest : String) :
    recoverTarget ("Mozilla/5.0 (Windows NT " ++ rest) = some ChromeWin ∧
    recoverTarget ("Mozilla/5.0 (Linux; Android " ++ rest) = some ChromeAndroid ∧
    recoverTarget ("Mozilla/5.0 (iPhone; " ++ rest) = some SafariIPhone ∧
    recoverTarget ("Mozilla/5.0 (Macintosh; " ++ rest) = some SafariMac := by
  refine ⟨?_, ?_, ?_, ?_⟩
  · unfold recoverTarget
    rw [String.data_append, if_pos (isPrefixOf_self_append _ _)]
  · unfold recoverTarget
    rw [String.data_append,
      if_neg (by rw [isPrefixOf_of_mismatch _ _ _ (by decide)]; simp),
      if_pos (isPrefixOf_self_append _ _)]
  · unfold recoverTarget
    rw [String.data_append,
      if_neg (by rw [isPrefixOf_of_mismatch _ _ _ (by decide)]; simp),
      if_neg (by rw [isPrefixOf_of_mismatch _ _ _ (by decide)]; simp),
      if_pos (isPrefixOf_self_append _ _)]
  · unfold recoverTarget
    rw [String.data_append,
      if_neg (by rw [isPrefixOf_of_mismatch _ _ _ (by decide)]; simp),
      if_neg (by rw [isPrefixOf_of_mismatch _ _ _ (by decide)]; simp),
      if_neg (by rw [isPrefixOf_of_mismatch _ _ _ (by decide)]; simp),
      if_pos (isPrefixOf_self_append _ _)]

/-- The target of a result can be read off its User-Agent. -/
theorem recoverTarget_Generate {target : Target}
    (ht : target ∈ [ChromeWin, ChromeAndroid, SafariIPhone, SafariMac])
    {opts : List GenOption} {s s' : Source} {r : Result}
    (h : Generate target opts s = some (r, s')) : recoverTarget r.UserAgent = some target := by
  simp only [List.mem_cons, List.mem_singleton, List.not_mem_nil, or_false] at ht
  obtain ⟨h0, h1, h2, h3⟩ := Generate_opening h
  rcases ht with rfl | rfl | rfl | rfl
  · obtain ⟨rest, hr⟩ := h0 rfl
    rw [hr]; exact (recoverTarget_opening rest).1
  · obtain ⟨rest, hr⟩ := h1 rfl
    rw [hr]; exact (recoverTarget_opening rest).2.1
  · obtain ⟨rest, hr⟩ := h2 rfl
    rw [hr]; exact (recoverTarget_opening rest).2.2.1
  · obtain ⟨rest, hr⟩ := h3 rfl
    rw [hr]; exact (recoverTarget_opening rest).2.2.2

/-! ## Claims about the type parameter -/

/-- C14.  When no `@`-separated segment of the type value is, after trimming white space, one of
`win`, `android`, `ios`, `mac`, the handler computes the same eligible targets as for an omitted
type, namely `[ChromeWin, ChromeAndroid, SafariIPhone, SafariMac]`, and for every count value and
equal random draws the two requests get identical answers. -/
theorem type_fallback (typeStr : String)
    (hno : ∀ seg ∈ SplitSeq typeStr '@',
      TrimSpace seg ≠ "win" ∧ TrimSpace seg ≠ "android" ∧ TrimSpace seg ≠ "ios" ∧
        TrimSpace seg ≠ "mac") :
    eligibleTargets typeStr = [ChromeWin, ChromeAndroid, SafariIPhone, SafariMac] ∧
    eligibleTargets typeStr = eligibleTargets "" ∧
    ∀ (countStr : String) (s : Source), handleUA countStr typeStr s = handleUA countStr "" s := by
  have hreq : requestedTargets typeStr = [] := by
    unfold requestedTargets
    rw [List.map_eq_nil_iff, List.filter_eq_nil_iff]
    intro code hcode
    obtain ⟨seg, hseg, rfl⟩ := List.mem_map.mp hcode
    obtain ⟨h1, h2, h3, h4⟩ := hno seg hseg
    simp [h1, h2, h3, h4]
  have hall : eligibleTargets typeStr = [ChromeWin, ChromeAndroid, SafariIPhone, SafariMac] := by
    rw [eligibleTargets_eq, if_pos hreq]
  have hempty : eligibleTargets "" = [ChromeWin, ChromeAndroid, SafariIPhone, SafariMac] := by
    decide
  refine ⟨hall, hall.trans hempty.symm, fun countStr s => ?_⟩
  unfold handleUA
  rw [hall, hempty]

theorem type_fallback_witness :
    (∀ seg ∈ SplitSeq "bogus@ Win @" '@',
      TrimSpace seg ≠ "win" ∧ TrimSpace seg ≠ "android" ∧ TrimSpace seg ≠ "ios" ∧
        TrimSpace seg ≠ "mac") ∧
    eligibleTargets "bogus@ Win @" = [ChromeWin, ChromeAndroid, SafariIPhone, SafariMac] ∧
    eligibleTargets "bogus@ Win @" = eligibleTargets "" ∧
    ∀ (countStr : String) (s : Source),
      handleUA countStr "bogus@ Win @" s = handleUA countStr "" s :=
  ⟨by decide, type_fallback "bogus@ Win @" (by decide)⟩

/-- C17.  For every type value the targets collected by the handler are the sequence of the
specification: split on `@`, trim each segment, drop what is not exactly `win`, `android`, `ios`
or `mac`, map the rest to the four targets in order of appearance, repeated codes included.  When
this sequence is non-empty it is the eligible list (otherwise all four targets are eligible), and
every entry of the array `ua` is the User-Agent of a result of `Generate` for an eligible target,
whose template it carries. -/
theorem type_selection (typeStr : String) :
    parseTargets typeStr = requestedTargets typeStr ∧
    (requestedTargets typeStr ≠ [] → eligibleTargets typeStr = requestedTargets typeStr) ∧
    (requestedTargets typeStr = [] →
      eligibleTargets typeStr = [ChromeWin, ChromeAndroid, SafariIPhone, SafariMac]) ∧
    (∀ (countStr : String) (s : Source), ∃ (uas : List String) (s' : Source),
      handleUA countStr typeStr s = some (uas, s') ∧
      ∀ u ∈ uas, ∃ t ∈ eligibleTargets typeStr,
        recoverTarget u = some t ∧
        ∃ (s1 : Source) (r : Result) (s2 : Source),
          Generate t [] s1 = some (r, s2) ∧ u = r.UserAgent) := by
  refine ⟨parseTargets_eq_requested typeStr, fun h => ?_, fun h => ?_, fun countStr s => ?_⟩
  · rw [eligibleTargets_eq, if_neg h]
  · rw [eligibleTargets_eq, if_pos h]
  · obtain ⟨uas, s', h, -, hall⟩ := handleUA_spec countStr typeStr s
    refine ⟨uas, s', h, fun u hu => ?_⟩
    obtain ⟨t, ht, s1, r, s2, hg, rfl⟩ := hall u hu
    exact ⟨t, ht, recoverTarget_Generate (eligibleTargets_valid typeStr t ht) hg,
      s1, r, s2, hg, rfl⟩

theorem type_selection_witness :
    requestedTargets " win @@ios@bogus@win" = [ChromeWin, SafariIPhone, ChromeWin] ∧
    (requestedTargets " win @@ios@bogus@win" ≠ []) ∧
    eligibleTargets " win @@ios@bogus@win" = requestedTargets " win @@ios@bogus@win" :=
  ⟨by decide, by decide, (type_selection " win @@ios@bogus@win").2.1 (by decide)⟩

/-! ## Claims about the version inside the result -/

/-- A sampled Chrome version renders its own major component first. -/
theorem chromeVersion_shape {M D : Int} {s s1 : Source} {ver : Version}
    (h : chromeVersion M D s = some (ver, s1)) :
    ∃ rest : String, ver.Full = decimal ver.Major ++ "." ++ rest := by
  cases hd : fromRange (if M > 0 then (max (wrap (M - D)) 0, M)
        else (chromeVersionRange.MajorMin, chromeVersionRange.MajorMax)).1
      (if M > 0 then (max (wrap (M - D)) 0, M)
        else (chromeVersionRange.MajorMin, chromeVersionRange.MajorMax)).2 s with
  | none =>
    rw [chromeVersion_of_major_none hd] at h
    exact absurd h (by simp)
  | some p =>
    obtain ⟨major, s2⟩ := p
    obtain ⟨patch, build, -, -, hv⟩ := chromeVersion_of_major hd
    rw [hv] at h
    obtain ⟨rfl, -⟩ := Prod.mk.inj (Option.some.inj h)
    have hdot : ".0." = "." ++ "0." := by decide
    refine ⟨"0." ++ decimal patch ++ "." ++ decimal build, ?_⟩
    simp only [hdot, String.append_assoc]

/-- A sampled Safari version renders its own major component first. -/
theorem safariVersion_shape {M D : Int} {s s1 : Source} {ver : Version}
    (h : safariVersion M D s = some (ver, s1)) :
    ∃ rest : String, ver.Full = decimal ver.Major ++ "." ++ rest := by
  cases hd : fromRange (if M > 0 then (max (wrap (M - D)) 0, M)
        else (safariVersionRange.MajorMin, safariVersionRange.MajorMax)).1
      (if M > 0 then (max (wrap (M - D)) 0, M)
        else (safariVersionRange.MajorMin, safariVersionRange.MajorMax)).2 s with
  | none =>
    rw [safariVersion_of_major_none hd] at h
    exact absurd h (by simp)
  | some p =>
    obtain ⟨major, s2⟩ := p
    obtain ⟨minor, patch, -, -, h3, h4⟩ := safariVersion_of_major hd
    by_cases hf : ltPoint3 (s2.tail 0 % 9223372036854775808)
    · rw [h3 hf] at h
      obtain ⟨rfl, -⟩ := Prod.mk.inj (Option.some.inj h)
      exact ⟨decimal minor ++ "." ++ decimal patch, by simp only [String.append_assoc]⟩
    · rw [h4 hf] at h
      obtain ⟨rfl, -⟩ := Prod.mk.inj (Option.some.inj h)
      exact ⟨decimal minor, rfl⟩

/-- Every result carries its `Full` version inside the User-Agent, and `Full` starts with the
rendering of `Major` followed by a dot. -/
theorem Generate_version_verbatim {target : Target}
    (ht : target ∈ [ChromeWin, ChromeAndroid, SafariIPhone, SafariMac])
    {opts : List GenOption} {s s' : Source} {r : Result}
    (h : Generate target opts s = some (r, s')) :
    Contains r.UserAgent r.BrowserVersion.Full ∧
    ∃ rest : String, r.BrowserVersion.Full = decimal r.BrowserVersion.Major ++ "." ++ rest := by
  simp only [List.mem_cons, List.mem_singleton, List.not_mem_nil, or_false] at ht
  rcases ht with rfl | rfl | rfl | rfl
  · obtain ⟨hv, hua⟩ := Generate_ChromeWin_result h
    refine ⟨?_, chromeVersion_shape hv⟩
    rw [hua, generateChromeWindows_eq]
    exact ⟨_, _, rfl⟩
  · obtain ⟨a, w, -, -, -, hua⟩ := Generate_ChromeAndroid_result h
    obtain ⟨s1, hv⟩ := Generate_ChromeAndroid_version h
    refine ⟨?_, chromeVersion_shape hv⟩
    rw [hua]
    exact ⟨_, _, rfl⟩
  · obtain ⟨⟨s1, hv⟩, i, mobileID, -, hua⟩ := Generate_SafariIPhone_result h
    refine ⟨?_, safariVersion_shape hv⟩
    rw [hua]
    exact contains_append_left _ (contains_self _)
  · obtain ⟨⟨s1, hv⟩, m, d, k, -, -, -, hua⟩ := Generate_SafariMac_result h
    refine ⟨?_, safariVersion_shape hv⟩
    rw [hua]
    exact contains_append_left _ (contains_self _)

/-- C15.  For each of the four valid targets, every option configuration and every random source,
every result `r` of `Generate` has `r.BrowserVersion.Full` as a contiguous substring of
`r.UserAgent`, and `r.BrowserVersion.Full` begins with the decimal rendering of
`r.BrowserVersion.Major` followed by `.`; a result is returned for all 64-bit options except those
whose major window has width `2^63`. -/
theorem version_verbatim (target : Target)
    (ht : target ∈ [ChromeWin, ChromeAndroid, SafariIPhone, SafariMac])
    (opts : List GenOption) (s : Source) :
    (∀ (r : Result) (s' : Source), Generate target opts s = some (r, s') →
      Contains r.UserAgent r.BrowserVersion.Full ∧
      ∃ rest : String,
        r.BrowserVersion.Full = decimal r.BrowserVersion.Major ++ "." ++ rest) ∧
    (isInt (applyOptions opts).MaxMajor → isInt (applyOptions opts).MajorDelta →
      ¬ ((applyOptions opts).MaxMajor = maxInt ∧
        ((applyOptions opts).MajorDelta = maxInt ∨ (applyOptions opts).MajorDelta < 0)) →
      ∃ (r : Result) (s' : Source), Generate target opts s = some (r, s')) :=
  ⟨fun _ _ h => Generate_version_verbatim ht h,
   fun hM hD hfit => Generate_returns ht opts hM hD hfit s⟩

theorem version_verbatim_witness :
    SafariIPhone ∈ [ChromeWin, ChromeAndroid, SafariIPhone, SafariMac] ∧
    ∃ (r : Result) (s' : Source),
      Generate SafariIPhone [WithMaxMajor 620, WithMajorDelta 4] (fun _ => 5) = some (r, s') ∧
      Contains r.UserAgent r.BrowserVersion.Full ∧
      ∃ rest : String,
        r.BrowserVersion.Full = decimal r.BrowserVersion.Major ++ "." ++ rest := by
  refine ⟨by decide, ?_⟩
  obtain ⟨r, s', h⟩ := (version_verbatim SafariIPhone (by decide)
    [WithMaxMajor 620, WithMajorDelta 4] (fun _ => 5)).2 (by decide) (by decide) (by decide)
  exact ⟨r, s', h, (version_verbatim SafariIPhone (by decide)
    [WithMaxMajor 620, WithMajorDelta 4] (fun _ => 5)).1 r s' h⟩

/-! ## Claims about the default window -/

/-- Every value of an override window that fits in 64 bits is drawn for some source. -/
theorem major_window_reach {M D v : Int} (hM : 0 < M) (hM' : M ≤ maxInt) (hD : 0 ≤ D)
    (hD' : D ≤ maxInt) (hMD : M < maxInt ∨ D < maxInt) (h1 : max (M - D) 0 ≤ v) (h2 : v ≤ M) :
    ∃ (s s1 : Source), fromRange (max (wrap (M - D)) 0) M s = some (v, s1) := by
  have hw : wrap (M - D) = M - D := wrap_eq_self (by
    unfold isInt minInt maxInt at *; omega)
  rw [hw]
  by_cases hge : max (M - D) 0 ≥ M
  · have hv : v = max (M - D) 0 := by omega
    exact ⟨fun _ => 0, _, by rw [hv]; exact fromRange_of_ge hge _⟩
  · have hlt : max (M - D) 0 < M := not_le.mp hge
    obtain ⟨s, hs⟩ := fromRange_surj hlt
      (by unfold isInt minInt maxInt at *; omega) (by unfold isInt minInt maxInt at *; omega)
      (by unfold maxInt at *; omega) h1 h2
    exact ⟨s, _, hs⟩

/-- A drawn major component becomes the `Major` of the result of the two Chrome targets. -/
theorem Generate_chrome_major {target : Target}
    (ht : target = ChromeWin ∨ target = ChromeAndroid) (opts : List GenOption) {M D : Int}
    (hM : (applyOptions opts).MaxMajor = M) (hD : (applyOptions opts).MajorDelta = D)
    {s s1 : Source} {major : Int}
    (h : fromRange (if M > 0 then (max (wrap (M - D)) 0, M)
          else (chromeVersionRange.MajorMin, chromeVersionRange.MajorMax)).1
        (if M > 0 then (max (wrap (M - D)) 0, M)
          else (chromeVersionRange.MajorMin, chromeVersionRange.MajorMax)).2 s
        = some (major, s1)) :
    ∃ (r : Result) (s' : Source),
      Generate target opts s = some (r, s') ∧ r.BrowserVersion.Major = major := by
  subst hM hD
  obtain ⟨patch, build, -, -, hv⟩ := chromeVersion_of_major h
  rcases ht with rfl | rfl
  · exact ⟨_, _, Generate_ChromeWin_of_version hv, rfl⟩
  · obtain ⟨a, w, s2, -, -, -, hg⟩ := Generate_ChromeAndroid_of_version hv
    exact ⟨_, _, hg, rfl⟩

/-- A drawn major component becomes the `Major` of the result of the two Safari targets. -/
theorem Generate_safari_major {target : Target}
    (ht : target = SafariIPhone ∨ target = SafariMac) (opts : List GenOption) {M D : Int}
    (hM : (applyOptions opts).MaxMajor = M) (hD : (applyOptions opts).MajorDelta = D)
    {s s1 : Source} {major : Int}
    (h : fromRange (if M > 0 then (max (wrap (M - D)) 0, M)
          else (safariVersionRange.MajorMin, safariVersionRange.MajorMax)).1
        (if M > 0 then (max (wrap (M - D)) 0, M)
          else (safariVersionRange.MajorMin, safariVersionRange.MajorMax)).2 s
        = some (major, s1)) :
    ∃ (r : Result) (s' : Source),
      Generate target opts s = some (r, s') ∧ r.BrowserVersion.Major = major := by
  subst hM hD
  obtain ⟨minor, patch, -, -, h3, h4⟩ := safariVersion_of_major h
  have hver : ∃ (ver : Version) (s2 : Source),
      safariVersion (applyOptions opts).MaxMajor (applyOptions opts).MajorDelta s
        = some (ver, s2) ∧ ver.Major = major := by
    by_cases hf : ltPoint3 (s1.tail 0 % 9223372036854775808)
    · exact ⟨_, _, h3 hf, rfl⟩
    · exact ⟨_, _, h4 hf, rfl⟩
  obtain ⟨ver, s2, hv, hmaj⟩ := hver
  rcases ht with rfl | rfl
  · obtain ⟨i, r1, r2, r3, r4, r5, r6, -, -, -, -, -, -, -, hg⟩ :=
      Generate_SafariIPhone_of_version hv
    exact ⟨_, _, hg, hmaj⟩
  · obtain ⟨m, d, k, -, -, -, hg⟩ := Generate_SafariMac_of_version hv
    exact ⟨_, _, hg, hmaj⟩

/-- With the options of a call, a major component drawn from the window of the target's browser
becomes the `Major` of the result. -/
theorem Generate_major_of_draw {target : Target}
    (ht : target ∈ [ChromeWin, ChromeAndroid, SafariIPhone, SafariMac]) (opts : List GenOption)
    {M D : Int} (hM : (applyOptions opts).MaxMajor = M) (hD : (applyOptions opts).MajorDelta = D)
    (hpos : 0 < M) {s s1 : Source} {major : Int}
    (h : fromRange (max (wrap (M - D)) 0) M s = some (major, s1)) :
    ∃ (r : Result) (s' : Source),
      Generate target opts s = some (r, s') ∧ r.BrowserVersion.Major = major := by
  simp only [List.mem_cons, List.mem_singleton, List.not_mem_nil, or_false] at ht
  have hc : fromRange (if M > 0 then (max (wrap (M - D)) 0, M)
        else (chromeVersionRange.MajorMin, chromeVersionRange.MajorMax)).1
      (if M > 0 then (max (wrap (M - D)) 0, M)
        else (chromeVersionRange.MajorMin, chromeVersionRange.MajorMax)).2 s
      = some (major, s1) := by
    rw [if_pos hpos]; exact h
  have hs : fromRange (if M > 0 then (max (wrap (M - D)) 0, M)
        else (safariVersionRange.MajorMin, safariVersionRange.MajorMax)).1
      (if M > 0 then (max (wrap (M - D)) 0, M)
        else (safariVersionRange.MajorMin, safariVersionRange.MajorMax)).2 s
      = some (major, s1) := by
    rw [if_pos hpos]; exact h
  rcases ht with rfl | rfl | rfl | rfl
  · exact Generate_chrome_major (Or.inl rfl) opts hM hD hc
  · exact Generate_chrome_major (Or.inr rfl) opts hM hD hc
  · exact Generate_safari_major (Or.inl rfl) opts hM hD hs
  · exact Generate_safari_major (Or.inr rfl) opts hM hD hs

/-- With no options the Chrome targets draw the major component from `[136, 138]`, every value of
which is drawn for some source. -/
theorem Generate_chrome_default {target : Target}
    (ht : target = ChromeWin ∨ target = ChromeAndroid) :
    (∀ s : Source, ∃ (r : Result) (s' : Source), Generate target [] s = some (r, s') ∧
      136 ≤ r.BrowserVersion.Major ∧ r.BrowserVersion.Major ≤ 138) ∧
    (∀ v : Int, 136 ≤ v → v ≤ 138 → ∃ (s : Source) (r : Result) (s' : Source),
      Generate target [] s = some (r, s') ∧ r.BrowserVersion.Major = v) := by
  have hopen : ∀ (s s1 : Source) (major : Int),
      fromRange chromeVersionRange.MajorMin chromeVersionRange.MajorMax s = some (major, s1) →
      ∃ (r : Result) (s' : Source),
        Generate target [] s = some (r, s') ∧ r.BrowserVersion.Major = major := by
    intro s s1 major h
    refine @Generate_chrome_major target ht [] 0 2 rfl rfl s s1 major ?_
    rw [if_neg (by decide)]
    exact h
  constructor
  · intro s
    obtain ⟨major, hm, h1, h2⟩ := fromRange_mem chromeVersionRange.MajorMin
      chromeVersionRange.MajorMax (by decide) (by decide) (by decide) (by decide) s
    obtain ⟨r, s', hg, hmaj⟩ := hopen s _ major hm
    exact ⟨r, s', hg, by rw [hmaj]; exact h1, by rw [hmaj]; exact h2⟩
  · intro v h1 h2
    obtain ⟨s, hs⟩ := @fromRange_surj chromeVersionRange.MajorMin chromeVersionRange.MajorMax v
      (by decide) (by decide) (by decide) (by decide) h1 h2
    obtain ⟨r, s', hg, hmaj⟩ := hopen s _ v hs
    exact ⟨s, r, s', hg, hmaj⟩

/-- With no options the Safari targets draw the major component from `[614, 632]`, every value of
which is drawn for some source. -/
theorem Generate_safari_default {target : Target}
    (ht : target = SafariIPhone ∨ target = SafariMac) :
    (∀ s : Source, ∃ (r : Result) (s' : Source), Generate target [] s = some (r, s') ∧
      614 ≤ r.BrowserVersion.Major ∧ r.BrowserVersion.Major ≤ 632) ∧
    (∀ v : Int, 614 ≤ v → v ≤ 632 → ∃ (s : Source) (r : Result) (s' : Source),
      Generate target [] s = some (r, s') ∧ r.BrowserVersion.Major = v) := by
  have hopen : ∀ (s s1 : Source) (major : Int),
      fromRange safariVersionRange.MajorMin safariVersionRange.MajorMax s = some (major, s1) →
      ∃ (r : Result) (s' : Source),
        Generate target [] s = some (r, s') ∧ r.BrowserVersion.Major = major := by
    intro s s1 major h
    refine @Generate_safari_major target ht [] 0 2 rfl rfl s s1 major ?_
    rw [if_neg (by decide)]
    exact h
  constructor
  · intro s
    obtain ⟨major, hm, h1, h2⟩ := fromRange_mem safariVersionRange.MajorMin
      safariVersionRange.MajorMax (by decide) (by decide) (by decide) (by decide) s
    obtain ⟨r, s', hg, hmaj⟩ := hopen s _ major hm
    exact ⟨r, s', hg, by rw [hmaj]; exact h1, by rw [hmaj]; exact h2⟩
  · intro v h1 h2
    obtain ⟨s, hs⟩ := @fromRange_surj safariVersionRange.MajorMin safariVersionRange.MajorMax v
      (by decide) (by decide) (by decide) (by decide) h1 h2
    obtain ⟨r, s', hg, hmaj⟩ := hopen s _ v hs
    exact ⟨s, r, s', hg, hmaj⟩

/-- C16.  The default `majorDelta` is 2: for every 64-bit `M > 0`, every valid target and every
random source, `Generate(target, WithMaxMajor(M))` returns a result whose `Major` lies in
`[max(M - 2, 0), M]`, and every integer of that window is the `Major` of the result for some
source.  With no options the major component is drawn from the whole configured range, `[136,
138]` for the Chrome targets and `[614, 632]` for the Safari targets. -/
theorem default_major_delta (M : Int) (hM : 0 < M) (hM' : M ≤ maxInt) (target : Target)
    (ht : target ∈ [ChromeWin, ChromeAndroid, SafariIPhone, SafariMac]) :
    (applyOptions []).MajorDelta = 2 ∧ (applyOptions [WithMaxMajor M]).MajorDelta = 2 ∧
    (∀ s : Source, ∃ (r : Result) (s' : Source),
      Generate target [WithMaxMajor M] s = some (r, s') ∧
      max (M - 2) 0 ≤ r.BrowserVersion.Major ∧ r.BrowserVersion.Major ≤ M) ∧
    (∀ v : Int, max (M - 2) 0 ≤ v → v ≤ M → ∃ (s : Source) (r : Result) (s' : Source),
      Generate target [WithMaxMajor M] s = some (r, s') ∧ r.BrowserVersion.Major = v) ∧
    (target = ChromeWin ∨ target = ChromeAndroid →
      (∀ s : Source, ∃ (r : Result) (s' : Source), Generate target [] s = some (r, s') ∧
        136 ≤ r.BrowserVersion.Major ∧ r.BrowserVersion.Major ≤ 138) ∧
      (∀ v : Int, 136 ≤ v → v ≤ 138 → ∃ (s : Source) (r : Result) (s' : Source),
        Generate target [] s = some (r, s') ∧ r.BrowserVersion.Major = v)) ∧
    (target = SafariIPhone ∨ target = SafariMac →
      (∀ s : Source, ∃ (r : Result) (s' : Source), Generate target [] s = some (r, s') ∧
        614 ≤ r.BrowserVersion.Major ∧ r.BrowserVersion.Major ≤ 632) ∧
      (∀ v : Int, 614 ≤ v → v ≤ 632 → ∃ (s : Source) (r : Result) (s' : Source),
        Generate target [] s = some (r, s') ∧ r.BrowserVersion.Major = v)) := by
  refine ⟨rfl, rfl, fun s => ?_, fun v h1 h2 => ?_, Generate_chrome_default,
    Generate_safari_default⟩
  · obtain ⟨major, s1, hmaj, h1, h2⟩ := @major_in_window M 2 hM hM' (by decide) (by decide)
      (Or.inr (by decide)) s
    obtain ⟨r, s', hg, hr⟩ := @Generate_major_of_draw target ht [WithMaxMajor M] M 2 rfl rfl hM
      s s1 major hmaj
    exact ⟨r, s', hg, by rw [hr]; exact h1, by rw [hr]; exact h2⟩
  · obtain ⟨s, s1, hs⟩ := @major_window_reach M 2 v hM hM' (by decide) (by decide)
      (Or.inr (by decide)) h1 h2
    obtain ⟨r, s', hg, hr⟩ := @Generate_major_of_draw target ht [WithMaxMajor M] M 2 rfl rfl hM
      s s1 v hs
    exact ⟨s, r, s', hg, hr⟩

theorem default_major_delta_witness :
    ((0 : Int) < 120 ∧ (120 : Int) ≤ maxInt ∧
      SafariMac ∈ [ChromeWin, ChromeAndroid, SafariIPhone, SafariMac]) ∧
    ∀ s : Source, ∃ (r : Result) (s' : Source),
      Generate SafariMac [WithMaxMajor 120] s = some (r, s') ∧
      max (120 - 2) 0 ≤ r.BrowserVersion.Major ∧ r.BrowserVersion.Major ≤ 120 :=
  ⟨by decide, (default_major_delta 120 (by decide) (by decide) SafariMac (by decide)).2.2.1⟩

/-! ## Claims about the four templates -/

/-- C20.  The four template shapes are mutually exclusive.  For two distinct valid targets, any
option configurations and any random sources, results of `Generate` have different User-Agents:
the strings start with `Mozilla/5.0 (Windows NT `, `Mozilla/5.0 (Linux; Android `,
`Mozilla/5.0 (iPhone; ` and `Mozilla/5.0 (Macintosh; ` respectively, literals that differ
pairwise at a common position, so the target is recovered from the string.  Results exist for all
64-bit options except those whose major window has width `2^63`. -/
theorem templates_exclusive (t1 t2 : Target)
    (h1 : t1 ∈ [ChromeWin, ChromeAndroid, SafariIPhone, SafariMac])
    (h2 : t2 ∈ [ChromeWin, ChromeAndroid, SafariIPhone, SafariMac]) (hne : t1 ≠ t2)
    (opts1 opts2 : List GenOption) (sa sb : Source) :
    (∀ (r1 r2 : Result) (sa' sb' : Source),
      Generate t1 opts1 sa = some (r1, sa') → Generate t2 opts2 sb = some (r2, sb') →
      r1.UserAgent ≠ r2.UserAgent) ∧
    (∀ (r : Result) (s' : Source), Generate t1 opts1 sa = some (r, s') →
      recoverTarget r.UserAgent = some t1 ∧
      (t1 = ChromeWin → ∃ rest : String, r.UserAgent = "Mozilla/5.0 (Windows NT " ++ rest) ∧
      (t1 = ChromeAndroid →
        ∃ rest : String, r.UserAgent = "Mozilla/5.0 (Linux; Android " ++ rest) ∧
      (t1 = SafariIPhone → ∃ rest : String, r.UserAgent = "Mozilla/5.0 (iPhone; " ++ rest) ∧
      (t1 = SafariMac → ∃ rest : String, r.UserAgent = "Mozilla/5.0 (Macintosh; " ++ rest)) ∧
    (mismatch "Mozilla/5.0 (Windows NT ".data "Mozilla/5.0 (Linux; Android ".data = true ∧
      mismatch "Mozilla/5.0 (Windows NT ".data "Mozilla/5.0 (iPhone; ".data = true ∧
      mismatch "Mozilla/5.0 (Windows NT ".data "Mozilla/5.0 (Macintosh; ".data = true ∧
      mismatch "Mozilla/5.0 (Linux; Android ".data "Mozilla/5.0 (iPhone; ".data = true ∧
      mismatch "Mozilla/5.0 (Linux; Android ".data "Mozilla/5.0 (Macintosh; ".data = true ∧
      mismatch "Mozilla/5.0 (iPhone; ".data "Mozilla/5.0 (Macintosh; ".data = true) ∧
    (isInt (applyOptions opts1).MaxMajor → isInt (applyOptions opts1).MajorDelta →
      ¬ ((applyOptions opts1).MaxMajor = maxInt ∧
        ((applyOptions opts1).MajorDelta = maxInt ∨ (applyOptions opts1).MajorDelta < 0)) →
      ∃ (r : Result) (s' : Source), Generate t1 opts1 sa = some (r, s')) := by
  refine ⟨fun r1 r2 sa' sb' g1 g2 heq => ?_, fun r s' g => ?_, by decide,
    fun hM hD hfit => Generate_returns h1 opts1 hM hD hfit sa⟩
  · have e1 := recoverTarget_Generate h1 g1
    have e2 := recoverTarget_Generate h2 g2
    rw [heq, e2] at e1
    exact hne (Option.some.inj e1).symm
  · exact ⟨recoverTarget_Generate h1 g, Generate_opening g⟩

theorem templates_exclusive_witness :
    (ChromeAndroid ∈ [ChromeWin, ChromeAndroid, SafariIPhone, SafariMac] ∧
      SafariMac ∈ [ChromeWin, ChromeAndroid, SafariIPhone, SafariMac] ∧
      ChromeAndroid ≠ SafariMac) ∧
    ∃ (r1 r2 : Result) (sa' sb' : Source),
      Generate ChromeAndroid [WithMobileVendor "Macintosh; Intel Mac OS X"] (fun _ => 3)
        = some (r1, sa') ∧
      Generate SafariMac [] (fun _ => 4) = some (r2, sb') ∧
      r1.UserAgent ≠ r2.UserAgent := by
  refine ⟨by decide, ?_⟩
  obtain ⟨r1, sa', g1⟩ := (templates_exclusive ChromeAndroid SafariMac (by decide) (by decide)
    (by decide) [WithMobileVendor "Macintosh; Intel Mac OS X"] [] (fun _ => 3)
    (fun _ => 4)).2.2.2 (by decide) (by decide) (by decide)
  obtain ⟨r2, sb', g2⟩ := (templates_exclusive SafariMac ChromeAndroid (by decide) (by decide)
    (by decide) [] [WithMobileVendor "Macintosh; Intel Mac OS X"] (fun _ => 4)
    (fun _ => 3)).2.2.2 (by decide) (by decide) (by decide)
  exact ⟨r1, r2, sa', sb', g1, g2,
    (templates_exclusive ChromeAndroid SafariMac (by decide) (by decide) (by decide)
      [WithMobileVendor "Macintosh; Intel Mac OS X"] [] (fun _ => 3) (fun _ => 4)).1
      r1 r2 sa' sb' g1 g2⟩

/-! ## Claims about the displayed iPhone version -/

theorem flatten_singletons (g : Char → Char) (l : List Char) :
    (l.map fun c => [g c]).flatten = l.map g := by
  induction l with
  | nil => rfl
  | cons c cs ih => simp only [List.map_cons, List.flatten_cons, ih, List.singleton_append]

/-- Replacing one character by another one maps the characters one by one. -/
theorem ReplaceAll_data (s : String) (old new : Char) :
    (ReplaceAll s old (String.singleton new)).data
      = s.data.map (fun c => if c = old then new else c) := by
  unfold ReplaceAll
  rw [String.data_join, List.map_map, ← flatten_singletons]
  congr 1
  apply List.map_congr_left
  intro c _
  by_cases h : c = old
  · simp only [Function.comp_apply, if_pos h]; rfl
  · simp only [Function.comp_apply, if_neg h]; rfl

/-- C18.  For every version and every random source the output of `generateSafariIPhone` is
`Mozilla/5.0 (iPhone; CPU iPhone OS i like Mac OS X) AppleWebKit/605.1.15 (KHTML, like Gecko)
Version/b Mobile/id Safari/ver.Full`, where `i` is an element of the iOS version table and `b` is
`i` with every underscore replaced by a dot (`17_5` gives `17.5`): `b` has no underscore and the
same length as `i`. -/
theorem generateSafariIPhone_displayed (ver : Version) (s : Source) :
    ∃ (i b mobileID : String) (s' : Source), i ∈ iOSVersions ∧
      generateSafariIPhone ver s
        = some ("Mozilla/5.0 (iPhone; CPU iPhone OS " ++ i
            ++ " like Mac OS X) AppleWebKit/605.1.15 (KHTML, like Gecko) Version/"
            ++ b ++ " Mobile/" ++ mobileID ++ " Safari/" ++ ver.Full, s') ∧
      b = ReplaceAll i '_' "." ∧
      b.data = i.data.map (fun c => if c = '_' then '.' else c) ∧
      '_' ∉ b.data ∧ b.length = i.length ∧
      ReplaceAll "17_5" '_' "." = "17.5" := by
  obtain ⟨i, r1, r2, r3, r4, r5, r6, hi, -, -, -, -, -, -, hg⟩ := generateSafariIPhone_eq s
  have hdata : (ReplaceAll i '_' ".").data = i.data.map (fun c => if c = '_' then '.' else c) :=
    ReplaceAll_data i '_' '.'
  refine ⟨i, ReplaceAll i '_' ".", _, _, hi, hg ver, rfl, hdata, ?_, ?_, by decide⟩
  · rw [hdata]
    intro hmem
    obtain ⟨c, -, hc⟩ := List.mem_map.mp hmem
    by_cases h : c = '_'
    · rw [if_pos h] at hc; exact absurd hc (by decide)
    · rw [if_neg h] at hc; exact h hc
  · show (ReplaceAll i '_' ".").data.length = i.data.length
    rw [hdata, List.length_map]

/-! ## Claims about the route prefix -/

/-- Trimming splits a list into a leading run, the kept middle and a trailing run. -/
theorem trim_decomp (p : Char → Bool) (l : List Char) :
    ∃ (lead trail : List Char),
      l = lead ++ (l.dropWhile p).rdropWhile p ++ trail ∧
      (∀ c ∈ lead, p c = true) ∧ (∀ c ∈ trail, p c = true) := by
  refine ⟨l.takeWhile p, ((l.dropWhile p).reverse.takeWhile p).reverse, ?_,
    fun c hc => List.mem_takeWhile_imp hc,
    fun c hc => List.mem_takeWhile_imp (List.mem_reverse.mp hc)⟩
  have h1 : (l.dropWhile p).rdropWhile p ++ ((l.dropWhile p).reverse.takeWhile p).reverse
      = l.dropWhile p := by
    unfold List.rdropWhile
    rw [← List.reverse_append, List.takeWhile_append_dropWhile, List.reverse_reverse]
  rw [List.append_assoc, h1, List.takeWhile_append_dropWhile]

/-- The kept middle does not start with a trimmed character. -/
theorem trim_head (p : Char → Bool) (l : List Char) (c : Char) (cs : List Char)
    (h : (l.dropWhile p).rdropWhile p = c :: cs) : p c = false := by
  obtain ⟨t, ht⟩ := List.rdropWhile_prefix p (l.dropWhile p)
  rw [h] at ht
  have hnot := List.head?_dropWhile_not p l
  rw [← ht] at hnot
  simpa using hnot

/-- The kept middle does not end with a trimmed character. -/
theorem trim_last (p : Char → Bool) (l : List Char)
    (hne : (l.dropWhile p).rdropWhile p ≠ []) :
    p (((l.dropWhile p).rdropWhile p).getLast hne) = false := by
  have := List.rdropWhile_last_not p (l.dropWhile p) hne
  simpa using this

/-- Trimming again a trimmed list behind one trimmed character gives the trimmed list. -/
theorem trim_idem (p : Char → Bool) (l : List Char) (d : Char) (hd : p d = true) :
    ((d :: (l.dropWhile p).rdropWhile p).dropWhile p).rdropWhile p
      = (l.dropWhile p).rdropWhile p := by
  have hdrop : (d :: (l.dropWhile p).rdropWhile p).dropWhile p
      = (l.dropWhile p).rdropWhile p := by
    rw [List.dropWhile_cons_of_pos hd]
    cases ht : (l.dropWhile p).rdropWhile p with
    | nil => rfl
    | cons c cs =>
      have hc := trim_head p l c cs ht
      rw [List.dropWhile_cons_of_neg (by rw [hc]; simp)]
  rw [hdrop]
  exact List.rdropWhile_idempotent p (l.dropWhile p)

theorem slash_contains (c : Char) : ("/".data.contains c) = true ↔ c = '/' := by
  have h : "/".data = ['/'] := rfl
  rw [h]
  simp

theorem routePrefix_data (urlPrefix : String) :
    (routePrefix urlPrefix).data
      = '/' :: (urlPrefix.data.dropWhile fun c => "/".data.contains c).rdropWhile
          fun c => "/".data.contains c := by
  unfold routePrefix Trim
  rw [String.data_append]
  rfl

/-- C19.  For every value of `URL_PREFIX` the route prefix is `/` followed by the value without its
leading and trailing `/` characters.  It starts with exactly one `/` (its second character, if
any, is not `/`), it ends with `/` only when it is `/` itself, the empty value and every value
made of slashes only give `/`, and normalising a normalised prefix returns it unchanged. -/
theorem routePrefix_normal (urlPrefix : String) :
    (∃ (lead body trail : String),
      urlPrefix = lead ++ body ++ trail ∧
      (∀ c ∈ lead.data, c = '/') ∧ (∀ c ∈ trail.data, c = '/') ∧
      body.data.head? ≠ some '/' ∧ body.data.getLast? ≠ some '/' ∧
      routePrefix urlPrefix = "/" ++ body) ∧
    (routePrefix urlPrefix).data.head? = some '/' ∧
    (routePrefix urlPrefix).data.get? 1 ≠ some '/' ∧
    ((routePrefix urlPrefix).data.getLast? = some '/' → routePrefix urlPrefix = "/") ∧
    ((∀ c ∈ urlPrefix.data, c = '/') → routePrefix urlPrefix = "/") ∧
    routePrefix "" = "/" ∧
    routePrefix (routePrefix urlPrefix) = routePrefix urlPrefix := by
  have hdata := routePrefix_data urlPrefix
  generalize hp : (fun c : Char => "/".data.contains c) = p at hdata
  have hpc : ∀ c, p c = true ↔ c = '/' := by
    intro c; rw [← hp]; exact slash_contains c
  have hhead : ((urlPrefix.data.dropWhile p).rdropWhile p).head? ≠ some '/' := by
    cases ht : (urlPrefix.data.dropWhile p).rdropWhile p with
    | nil => simp
    | cons c cs =>
      have hc := trim_head p urlPrefix.data c cs ht
      intro h
      have hc' : c = '/' := by simpa using h
      rw [hc', (hpc '/').mpr rfl] at hc
      exact absurd hc (by decide)
  have hlast : ((urlPrefix.data.dropWhile p).rdropWhile p).getLast? ≠ some '/' := by
    intro h
    have hne : (urlPrefix.data.dropWhile p).rdropWhile p ≠ [] := by
      intro he; rw [he] at h; simp at h
    have hl := trim_last p urlPrefix.data hne
    rw [List.getLast?_eq_getLast _ hne] at h
    rw [Option.some.inj h, (hpc '/').mpr rfl] at hl
    exact absurd hl (by decide)
  refine ⟨?_, ?_, ?_, ?_, ?_, by decide, ?_⟩
  · obtain ⟨lead, trail, hdec, hl, ht⟩ := trim_decomp p urlPrefix.data
    refine ⟨String.mk lead, String.mk ((urlPrefix.data.dropWhile p).rdropWhile p),
      String.mk trail, ?_, fun c hc => (hpc c).mp (hl c hc), fun c hc => (hpc c).mp (ht c hc),
      hhead, hlast, ?_⟩
    · apply String.ext
      rw [String.data_append, String.data_append]
      exact hdec
    · apply String.ext
      rw [hdata, String.data_append]
      rfl
  · rw [hdata]; rfl
  · rw [hdata]
    intro h
    apply hhead
    cases ht : (urlPrefix.data.dropWhile p).rdropWhile p with
    | nil => rw [ht] at h; simp at h
    | cons c cs => rw [ht] at h; simpa using h
  · intro h
    rw [hdata] at h
    apply String.ext
    rw [hdata]
    cases ht : (urlPrefix.data.dropWhile p).rdropWhile p with
    | nil => rfl
    | cons c cs =>
      exfalso
      apply hlast
      rw [ht] at h ⊢
      rw [List.getLast?_cons_cons] at h
      exact h
  · intro h
    apply String.ext
    rw [hdata]
    have hnil : (urlPrefix.data.dropWhile p) = [] :=
      List.dropWhile_eq_nil_iff.mpr (fun c hc => (hpc c).mpr (h c hc))
    rw [hnil]
    rfl
  · apply String.ext
    have h2 := routePrefix_data (routePrefix urlPrefix)
    rw [hp, hdata] at h2
    rw [h2, hdata, trim_idem p urlPrefix.data '/' ((hpc '/').mpr rfl)]

theorem routePrefix_normal_witness :
    (((routePrefix "//api/v1//").data.getLast? = some '/' → routePrefix "//api/v1//" = "/") ∧
      routePrefix "//api/v1//" = "/api/v1") ∧
    ((∀ c ∈ ("///" : String).data, c = '/') ∧ routePrefix "///" = "/") :=
  ⟨⟨(routePrefix_normal "//api/v1//").2.2.2.1, by decide⟩,
   ⟨by decide, (routePrefix_normal "///").2.2.2.2.1 (by decide)⟩⟩

end UserAgent
